import Mathlib

/-!
# WV-Networking: a shallow embedding of the core runtime

This file embeds the data model and the operations of the WV-Networking
runtime (wire codec, packets, connections, transport driver, actor world,
replication, RPC dispatch) as executable Lean definitions, translated
directly from the C++ sources (`src/BitStream.cpp`, `src/Packet.cpp`,
`src/NetConnection.cpp`, `src/NetDriver.cpp`, `src/World.cpp`,
`src/Actor.cpp`, `src/ReplicationManager.cpp`, `src/RPCManager.cpp`),
and proves or refutes the specified properties about them.

Modelling conventions:
* machine integers are `Nat` (or `Int` for signed values) with explicit
  reductions modulo `2 ^ w` where the C++ width matters;
* byte buffers are `List Nat` whose elements are byte values;
* `float` and `double` values are represented by their 32- and 64-bit
  object representation (bit pattern) since the codec only ever copies
  their bytes (`memcpy`); no floating-point arithmetic is modelled;
* C++ time-valued fields (`float` seconds) are modelled as `Rat`; the
  exponential RTT average is therefore exact rather than rounded, and no
  theorem below depends on those fields;
* heap identity of `new`-allocated objects (actors, connections) is
  modelled by `Nat` keys; raw property memory behind `dataPtr` is a
  byte list.
-/

set_option maxRecDepth 100000

namespace WVNet

/-! ## Little-endian byte encoding

The C++ codec memcpy's native little-endian representations.  `natToBytesLE
w v` is the `w`-byte little-endian image of `v` (dropping bits beyond
`8*w`, as the C++ integral conversions do), `bytesToNatLE` its inverse. -/

def natToBytesLE : Nat → Nat → List Nat
  | 0, _ => []
  | w + 1, v => v % 256 :: natToBytesLE w (v / 256)

def bytesToNatLE : List Nat → Nat
  | [] => 0
  | b :: bs => b + 256 * bytesToNatLE bs

/-- Two's-complement reading of a `w`-byte unsigned value, as the C++
signed integer types store it. -/
def toSigned (w : Nat) (n : Nat) : Int :=
  if n < 2 ^ (8 * w - 1) then (n : Int) else (n : Int) - 2 ^ (8 * w)

/-- Two's-complement `w`-byte image of a signed value (the bytes that
`memcpy` of an `intN_t` produces). -/
def intToTwosComp (w : Nat) (v : Int) : Nat :=
  (v % ((2 : Int) ^ (8 * w))).toNat

/-! ## BitStream (src/BitStream.cpp)

`m_buffer` is the byte vector, `m_writePos` and `m_readPos` the two
cursors.  `reserve` only changes capacity, so the constructors leave the
buffer empty (default) or equal to the input data. -/

structure BitStream where
  buffer : List Nat
  writePos : Nat
  readPos : Nat
deriving DecidableEq, Repr

namespace BitStream

/-- `BitStream::BitStream()` (and the reserve constructor). -/
def empty : BitStream := ⟨[], 0, 0⟩

/-- `BitStream::BitStream(const uint8_t* data, size_t size)`. -/
def ofBytes (data : List Nat) : BitStream := ⟨data, data.length, 0⟩

/-- `CanRead(bytes)`: `m_readPos + bytes <= m_writePos`. -/
def canRead (s : BitStream) (n : Nat) : Bool := s.readPos + n ≤ s.writePos

/-- `GetSize()` is `m_writePos`. -/
def getSize (s : BitStream) : Nat := s.writePos

/-- `GetBytesRemaining()` is `m_writePos - m_readPos`. -/
def getBytesRemaining (s : BitStream) : Nat := s.writePos - s.readPos

/-- The bytes visible through `GetData()` up to `GetSize()`. -/
def bytes (s : BitStream) : List Nat := s.buffer.take s.writePos

/-- `ResetReadPos()`. -/
def resetReadPos (s : BitStream) : BitStream := { s with readPos := 0 }

/-- `Clear()`: resets both cursors, keeps the buffer storage. -/
def clear (s : BitStream) : BitStream := { s with writePos := 0, readPos := 0 }

/-- `EnsureCapacity(additionalBytes)`: `resize` zero-extends the buffer to
`m_writePos + additionalBytes` when it is shorter. -/
def ensureCapacity (s : BitStream) (n : Nat) : List Nat :=
  if s.buffer.length < s.writePos + n then
    s.buffer ++ List.replicate (s.writePos + n - s.buffer.length) 0
  else s.buffer

/-- `Write(const void*, size)`: `EnsureCapacity`, then `memcpy` overwrites
`size` bytes at `m_writePos` and advances it. -/
def writeBytes (s : BitStream) (bs : List Nat) : BitStream :=
  { buffer := (s.ensureCapacity bs.length).take s.writePos
      ++ (bs ++ (s.ensureCapacity bs.length).drop (s.writePos + bs.length)),
    writePos := s.writePos + bs.length,
    readPos := s.readPos }

/-- `WriteUIntN` for `N = 8 * w` bits: `memcpy` of the little-endian
representation (bits beyond the width are dropped by the C++ conversion
to the argument type). -/
def writeUInt (w : Nat) (s : BitStream) (v : Nat) : BitStream :=
  s.writeBytes (natToBytesLE w v)

def writeUInt8 (s : BitStream) (v : Nat) : BitStream := writeUInt 1 s v

def writeUInt16 (s : BitStream) (v : Nat) : BitStream := writeUInt 2 s v

def writeUInt32 (s : BitStream) (v : Nat) : BitStream := writeUInt 4 s v

def writeUInt64 (s : BitStream) (v : Nat) : BitStream := writeUInt 8 s v

/-- `WriteIntN`: the stored bytes are the two's-complement image. -/
def writeInt (w : Nat) (s : BitStream) (v : Int) : BitStream :=
  s.writeBytes (natToBytesLE w (intToTwosComp w v))

def writeInt8 (s : BitStream) (v : Int) : BitStream := writeInt 1 s v

def writeInt16 (s : BitStream) (v : Int) : BitStream := writeInt 2 s v

def writeInt32 (s : BitStream) (v : Int) : BitStream := writeInt 4 s v

def writeInt64 (s : BitStream) (v : Int) : BitStream := writeInt 8 s v

/-- `WriteBool`: one byte, 1 or 0. -/
def writeBool (s : BitStream) (b : Bool) : BitStream :=
  s.writeUInt8 (if b then 1 else 0)

/-- `WriteFloat`: `memcpy` of the 4-byte object representation; the value
is identified with its 32-bit pattern. -/
def writeFloat (s : BitStream) (pattern : Nat) : BitStream := writeUInt 4 s pattern

/-- `WriteDouble`: 8-byte object representation. -/
def writeDouble (s : BitStream) (pattern : Nat) : BitStream := writeUInt 8 s pattern

/-- `WriteString`: u32 length prefix, then the raw bytes (none when
empty); the length is the C++ `length()` cast to u32. -/
def writeString (s : BitStream) (str : List Nat) : BitStream :=
  let s1 := s.writeUInt32 str.length
  if 0 < str.length then s1.writeBytes str else s1

/-- `WriteVector3`: three floats in order x, y, z. -/
def writeVector3 (s : BitStream) (v : Nat × Nat × Nat) : BitStream :=
  ((s.writeFloat v.1).writeFloat v.2.1).writeFloat v.2.2

/-- `WriteQuaternion`: four floats in order w, x, y, z. -/
def writeQuaternion (s : BitStream) (q : Nat × Nat × Nat × Nat) : BitStream :=
  (((s.writeFloat q.1).writeFloat q.2.1).writeFloat q.2.2.1).writeFloat q.2.2.2

/-- `bool Read(void*, size)`: succeeds (bytes copied, cursor advanced)
only when `CanRead(size)`. -/
def readBytesRaw (s : BitStream) (n : Nat) : List Nat × BitStream :=
  if s.readPos + n ≤ s.writePos then
    ((s.buffer.drop s.readPos).take n, { s with readPos := s.readPos + n })
  else ([], s)

/-- `ReadUIntN`: the value is zero-initialised, so a failed `Read` leaves
it 0 and does not advance the cursor. -/
def readUInt (w : Nat) (s : BitStream) : Nat × BitStream :=
  if s.readPos + w ≤ s.writePos then
    (bytesToNatLE ((s.buffer.drop s.readPos).take w),
     { s with readPos := s.readPos + w })
  else (0, s)

def readUInt8 (s : BitStream) : Nat × BitStream := readUInt 1 s

def readUInt16 (s : BitStream) : Nat × BitStream := readUInt 2 s

def readUInt32 (s : BitStream) : Nat × BitStream := readUInt 4 s

def readUInt64 (s : BitStream) : Nat × BitStream := readUInt 8 s

/-- `ReadIntN`: same bytes, interpreted two's-complement (0 on failure). -/
def readInt (w : Nat) (s : BitStream) : Int × BitStream :=
  let r := readUInt w s
  (toSigned w r.1, r.2)

def readInt8 (s : BitStream) : Int × BitStream := readInt 1 s

def readInt16 (s : BitStream) : Int × BitStream := readInt 2 s

def readInt32 (s : BitStream) : Int × BitStream := readInt 4 s

def readInt64 (s : BitStream) : Int × BitStream := readInt 8 s

/-- `ReadBool`: `ReadUInt8() != 0`. -/
def readBool (s : BitStream) : Bool × BitStream :=
  let r := s.readUInt8
  (r.1 ≠ 0, r.2)

/-- `ReadFloat`: 4-byte pattern, 0 (the pattern of `0.0f`) on failure. -/
def readFloat (s : BitStream) : Nat × BitStream := readUInt 4 s

/-- `ReadDouble`. -/
def readDouble (s : BitStream) : Nat × BitStream := readUInt 8 s

/-- `ReadString`: u32 length, empty result when the length is 0 or not
that many bytes remain, else the raw bytes. -/
def readString (s : BitStream) : List Nat × BitStream :=
  let r := s.readUInt32
  if r.1 = 0 then ([], r.2)
  else if ¬ r.2.canRead r.1 then ([], r.2)
  else r.2.readBytesRaw r.1

/-- `ReadVector3`: x, y, z. -/
def readVector3 (s : BitStream) : (Nat × Nat × Nat) × BitStream :=
  let rx := s.readFloat
  let ry := rx.2.readFloat
  let rz := ry.2.readFloat
  ((rx.1, ry.1, rz.1), rz.2)

/-- `ReadQuaternion`: w, x, y, z. -/
def readQuaternion (s : BitStream) : (Nat × Nat × Nat × Nat) × BitStream :=
  let rw := s.readFloat
  let rx := rw.2.readFloat
  let ry := rx.2.readFloat
  let rz := ry.2.readFloat
  ((rw.1, rx.1, ry.1, rz.1), rz.2)

/-- Structural invariant maintained by every C++ code path: the write
cursor never passes the end of the storage. -/
def wf (s : BitStream) : Prop := s.writePos ≤ s.buffer.length

/-- The bytes still unread (between the cursors). -/
def rest (s : BitStream) : List Nat :=
  (s.buffer.drop s.readPos).take (s.writePos - s.readPos)

end BitStream

/-- Helper: the cursor-advanced stream obtained by a successful `Read` of
`n` bytes. -/
def BitStream.advance (s : BitStream) (n : Nat) : BitStream :=
  { s with readPos := s.readPos + n }

/-! ## Packets (include/wvnet/Packet.h, src/Packet.cpp) -/

/-- `PACKET_MAGIC = 0x57564E45` ('WVNE'), include/wvnet/Core.h. -/
def PACKET_MAGIC : Nat := 0x57564E45

/-- `MAX_PACKET_SIZE = 1024`, include/wvnet/Core.h. -/
def MAX_PACKET_SIZE : Nat := 1024

/-- `PacketType` values (enum class PacketType : uint16_t). -/
def pkConnectionRequest : Nat := 0

def pkConnectionAccept : Nat := 1

def pkConnectionDenied : Nat := 2

def pkDisconnect : Nat := 3

def pkAcknowledgement : Nat := 10

def pkHeartbeat : Nat := 11

def pkActorSpawn : Nat := 20

def pkActorDestroy : Nat := 21

def pkActorReplication : Nat := 22

def pkRPCServer : Nat := 30

def pkRPCClient : Nat := 31

def pkRPCMulticast : Nat := 32

def pkTimeSync : Nat := 100

/-- `PacketHeader`: magic u32, sequence u32, packetType u16, payloadSize
u16 (12 bytes on the wire). -/
structure PacketHeader where
  magic : Nat
  sequence : Nat
  packetType : Nat
  payloadSize : Nat
deriving DecidableEq, Repr

namespace PacketHeader

/-- The default `PacketHeader()` constructor. -/
def init : PacketHeader :=
  { magic := PACKET_MAGIC, sequence := 0, packetType := 0, payloadSize := 0 }

/-- `PacketHeader::Serialize`. -/
def serialize (h : PacketHeader) (stream : BitStream) : BitStream :=
  (((stream.writeUInt32 h.magic).writeUInt32 h.sequence).writeUInt16
      h.packetType).writeUInt16 h.payloadSize

/-- `PacketHeader::Deserialize`: all four fields are assigned from the
stream unconditionally; the returned flag is `magic == PACKET_MAGIC`. -/
def deserialize (stream : BitStream) : PacketHeader × BitStream × Bool :=
  let rm := stream.readUInt32
  let rs := rm.2.readUInt32
  let rt := rs.2.readUInt16
  let rp := rt.2.readUInt16
  ({ magic := rm.1, sequence := rs.1, packetType := rt.1, payloadSize := rp.1 },
   rp.2, rm.1 = PACKET_MAGIC)

end PacketHeader

/-- `Packet`: header plus payload `BitStream`. -/
structure Packet where
  header : PacketHeader
  payload : BitStream
deriving DecidableEq, Repr

namespace Packet

/-- `Packet::Packet()`. -/
def default : Packet := { header := PacketHeader.init, payload := BitStream.empty }

/-- `Packet::Packet(PacketType)`: the default constructor then `SetType`. -/
def mkOfType (ty : Nat) : Packet :=
  { Packet.default with header := { PacketHeader.init with packetType := ty } }

/-- `SetSequence`. -/
def setSequence (p : Packet) (sequence : Nat) : Packet :=
  { p with header := { p.header with sequence := sequence } }

/-- The payload bytes as visible through `GetData()/GetSize()`. -/
def payloadBytes (p : Packet) : List Nat := p.payload.bytes

/-- `Packet::Serialize`: updates `payloadSize` from the payload size (cast
to u16), writes the header, then the payload bytes.  Returns the mutated
packet (the cast-away-const update of `m_header`) and the output stream. -/
def serialize (p : Packet) (outStream : BitStream) : Packet × BitStream :=
  let hdr := { p.header with payloadSize := p.payload.getSize % 2 ^ 16 }
  let out1 := hdr.serialize outStream
  let out2 := if 0 < p.payload.getSize then out1.writeBytes p.payloadBytes else out1
  ({ p with header := hdr }, out2)

/-- `Packet::Deserialize`: header first (fields overwritten even on magic
failure), then the payload iff `payloadSize` bytes remain; on the short
branch the payload member is left untouched. -/
def deserialize (p : Packet) (inStream : BitStream) : Bool × Packet × BitStream :=
  let rh := PacketHeader.deserialize inStream
  let p1 := { p with header := rh.1 }
  if rh.2.2 = false then (false, p1, rh.2.1)
  else if 0 < rh.1.payloadSize then
    if ¬ rh.2.1.canRead rh.1.payloadSize then (false, p1, rh.2.1)
    else
      let rb := rh.2.1.readBytesRaw rh.1.payloadSize
      (true, { p1 with payload := BitStream.ofBytes rb.1 }, rb.2)
  else (true, p1, rh.2.1)

/-- The serialized on-wire image of a packet, starting from a fresh
stream (as `NetConnection::FlushOutgoing` and the raw sends do). -/
def toBytes (p : Packet) : List Nat := ((p.serialize BitStream.empty).2).bytes

end Packet

/-! ## Association-list model of the C++ maps

`std::unordered_map`/`std::map` lookups, assign-or-insert (`operator[]=`)
and single-entry erase. -/

def lookupA {κ α : Type} [DecidableEq κ] : List (κ × α) → κ → Option α
  | [], _ => none
  | (k, v) :: rest, key => if k = key then some v else lookupA rest key

def insertA {κ α : Type} [DecidableEq κ] : List (κ × α) → κ → α → List (κ × α)
  | [], key, v => [(key, v)]
  | (k, w) :: rest, key, v =>
      if k = key then (k, v) :: rest else (k, w) :: insertA rest key v

def eraseA {κ α : Type} [DecidableEq κ] : List (κ × α) → κ → List (κ × α)
  | [], _ => []
  | (k, w) :: rest, key => if k = key then rest else (k, w) :: eraseA rest key

/-! ## Replicated properties (include/wvnet/Actor.h, src/Actor.cpp)

`PropertyType` is stored as its numeric value (a `static_cast` of an
arbitrary byte can land outside the enumerators, and the `switch`
`default:` branch then does nothing).  The raw actor memory behind
`dataPtr` is a byte list `mem`; a quaternion is laid out as its four
fields in the declaration order used by the codec (w, x, y, z). -/

def propBool : Nat := 0

def propInt8 : Nat := 1

def propUInt8 : Nat := 2

def propInt16 : Nat := 3

def propUInt16 : Nat := 4

def propInt32 : Nat := 5

def propUInt32 : Nat := 6

def propInt64 : Nat := 7

def propUInt64 : Nat := 8

def propFloat : Nat := 9

def propDouble : Nat := 10

def propVector3 : Nat := 11

def propQuaternion : Nat := 12

def propString : Nat := 13

def propCustom : Nat := 14

/-- `ReplicatedProperty` metadata (the `dataPtr` target is carried
separately as raw memory). -/
structure ReplicatedProperty where
  name : List Nat
  type : Nat
  size : Nat
  lastValue : List Nat
  dirty : Bool
deriving DecidableEq, Repr

/-- The registration constructor `ReplicatedProperty(n, t, ptr, sz)`:
`lastValue.resize(sz)` value-initialises, i.e. zero-fills. -/
def mkReplicatedProperty (name : List Nat) (type : Nat) (size : Nat) :
    ReplicatedProperty :=
  { name := name, type := type, size := size,
    lastValue := List.replicate size 0, dirty := true }

namespace ReplicatedProperty

/-- `HasChanged()`: true when `lastValue` is empty, else
`memcmp(dataPtr, lastValue.data(), size) != 0`.  (`dataPtr` is always
bound in this model, so the null check is dropped.) -/
def hasChanged (p : ReplicatedProperty) (mem : List Nat) : Bool :=
  if p.lastValue = [] then true
  else decide (mem.take p.size ≠ p.lastValue.take p.size)

/-- `UpdateLastValue()`: `memcpy(lastValue.data(), dataPtr, size)` and
clear `dirty`, only when `lastValue` is non-empty. -/
def updateLastValue (p : ReplicatedProperty) (mem : List Nat) :
    ReplicatedProperty :=
  if p.lastValue = [] then p
  else { p with lastValue := mem.take p.size, dirty := false }

/-- A `memcpy` of `bs` to the start of the property memory. -/
def memWrite (mem : List Nat) (bs : List Nat) : List Nat :=
  bs ++ mem.drop bs.length

/-- `ReplicatedProperty::Serialize`: name, kind byte, then the value read
through `dataPtr` (its raw bytes for the fixed-width kinds; a
length-prefixed string for `String`; nothing for `Custom`/unknown). -/
def serializeProp (p : ReplicatedProperty) (mem : List Nat)
    (stream : BitStream) : BitStream :=
  let s1 := (stream.writeString p.name).writeUInt8 p.type
  if p.type = propBool then s1.writeBool (mem.headD 0 ≠ 0)
  else if p.type = propInt8 ∨ p.type = propUInt8 then s1.writeBytes (mem.take 1)
  else if p.type = propInt16 ∨ p.type = propUInt16 then s1.writeBytes (mem.take 2)
  else if p.type = propInt32 ∨ p.type = propUInt32 ∨ p.type = propFloat then
    s1.writeBytes (mem.take 4)
  else if p.type = propInt64 ∨ p.type = propUInt64 ∨ p.type = propDouble then
    s1.writeBytes (mem.take 8)
  else if p.type = propVector3 then s1.writeBytes (mem.take 12)
  else if p.type = propQuaternion then s1.writeBytes (mem.take 16)
  else if p.type = propString then s1.writeString mem
  else s1

/-- `ReplicatedProperty::Deserialize`: reads (and overwrites!) `name` and
`type` from the stream, decodes a value of the kind *just read* into the
property memory, then `UpdateLastValue`.  A failed primitive read yields
the kind's zero value, exactly as the C++ readers do. -/
def deserializeProp (p : ReplicatedProperty) (mem : List Nat)
    (stream : BitStream) : ReplicatedProperty × List Nat × BitStream :=
  let rn := stream.readString
  let rt := rn.2.readUInt8
  let p1 := { p with name := rn.1, type := rt.1 }
  let step : List Nat × BitStream :=
    if rt.1 = propBool then
      let rb := rt.2.readBool
      (memWrite mem [if rb.1 then 1 else 0], rb.2)
    else if rt.1 = propInt8 ∨ rt.1 = propUInt8 then
      let rv := rt.2.readUInt 1
      (memWrite mem (natToBytesLE 1 rv.1), rv.2)
    else if rt.1 = propInt16 ∨ rt.1 = propUInt16 then
      let rv := rt.2.readUInt 2
      (memWrite mem (natToBytesLE 2 rv.1), rv.2)
    else if rt.1 = propInt32 ∨ rt.1 = propUInt32 ∨ rt.1 = propFloat then
      let rv := rt.2.readUInt 4
      (memWrite mem (natToBytesLE 4 rv.1), rv.2)
    else if rt.1 = propInt64 ∨ rt.1 = propUInt64 ∨ rt.1 = propDouble then
      let rv := rt.2.readUInt 8
      (memWrite mem (natToBytesLE 8 rv.1), rv.2)
    else if rt.1 = propVector3 then
      let rv := rt.2.readVector3
      (memWrite mem
        (natToBytesLE 4 rv.1.1 ++ natToBytesLE 4 rv.1.2.1 ++ natToBytesLE 4 rv.1.2.2),
       rv.2)
    else if rt.1 = propQuaternion then
      let rv := rt.2.readQuaternion
      (memWrite mem
        (natToBytesLE 4 rv.1.1 ++ natToBytesLE 4 rv.1.2.1
          ++ natToBytesLE 4 rv.1.2.2.1 ++ natToBytesLE 4 rv.1.2.2.2),
       rv.2)
    else if rt.1 = propString then
      let rv := rt.2.readString
      (rv.1, rv.2)
    else (mem, rt.2)
  (p1.updateLastValue step.1, step.1, step.2)

end ReplicatedProperty

/-- A registered property together with the actor memory it is bound to. -/
structure PropSlot where
  prop : ReplicatedProperty
  mem : List Nat
deriving DecidableEq, Repr

/-! ## Replication receive path (src/ReplicationManager.cpp) -/

/-- The `for (j = 0; j < readPos - 1; ++j) ReadUInt8()` skip loop in
`HandleActorUpdate`. -/
def skipOneByteReads : Nat → BitStream → BitStream
  | 0, s => s
  | k + 1, s => skipOneByteReads k (s.readUInt8).2

/-- The per-entry loop of `ReplicationManager::HandleActorUpdate`: read
the property name and kind byte; when the name is registered, "rewind" by
resetting the read cursor and re-reading `readPos - 1` single bytes (the
incorrect rewind present in the source: it lands on the kind byte, one
byte short of the start of the entry), then let
`ReplicatedProperty::Deserialize` decode from there.  (`readPos` is a
`size_t` in C++; the modelled subtraction is the Nat one, and no claim
below exercises `readPos = 0`.) -/
def handleActorUpdateLoop :
    Nat → BitStream → List (List Nat × PropSlot) →
      BitStream × List (List Nat × PropSlot)
  | 0, payload, props => (payload, props)
  | n + 1, payload, props =>
    let rn := payload.readString
    let rt := rn.2.readUInt8
    match lookupA props rn.1 with
    | some slot =>
        let readPos := rt.2.readPos
        let s3 := skipOneByteReads (readPos - 1) rt.2.resetReadPos
        let d := slot.prop.deserializeProp slot.mem s3
        handleActorUpdateLoop n d.2.2 (insertA props rn.1 ⟨d.1, d.2.1⟩)
    | none => handleActorUpdateLoop n rt.2 props

/-- `ReplicationManager::HandleActorUpdate`: read `netId` and
`propertyCount`, look the actor up, run the per-entry loop over its
registered properties (the `OnReplicated` hook has no modelled state). -/
def handleActorUpdate (actors : List (Nat × List (List Nat × PropSlot)))
    (payload : BitStream) : List (Nat × List (List Nat × PropSlot)) :=
  let r1 := payload.readUInt32
  let r2 := r1.2.readUInt32
  match lookupA actors r1.1 with
  | none => actors
  | some props =>
      let res := handleActorUpdateLoop r2.1 r2.2 props
      insertA actors r1.1 res.2

/-! ## Connections (include/wvnet/NetConnection.h, src/NetConnection.cpp)

Peer addresses are opaque `Nat` values.  The `float` time fields are kept
as exact rationals; the RTT moving average is therefore exact where the
C++ computes in `float`, and no theorem below depends on those fields. -/

inductive ConnectionState
  | Connecting
  | Connected
  | Disconnecting
  | Disconnected
deriving DecidableEq, Repr

structure ConnStats where
  packetsSent : Nat
  packetsReceived : Nat
  bytesSent : Nat
  bytesReceived : Nat
  packetsLost : Nat
deriving DecidableEq, Repr

def ConnStats.init : ConnStats := ⟨0, 0, 0, 0, 0⟩

structure NetConnection where
  address : Nat
  state : ConnectionState
  outgoingSequence : Nat
  incomingSequence : Nat
  reliableBuffer : List (Nat × Packet)
  outgoingQueue : List Packet
  roundTripTime : Rat
  lastSendTime : Rat
  lastReceiveTime : Rat
  currentTime : Rat
  stats : ConnStats
deriving DecidableEq, Repr

namespace NetConnection

/-- `NetConnection::NetConnection(address)`. -/
def mk' (address : Nat) : NetConnection :=
  { address := address, state := ConnectionState.Connecting,
    outgoingSequence := 0, incomingSequence := 0,
    reliableBuffer := [], outgoingQueue := [],
    roundTripTime := 0, lastSendTime := 0, lastReceiveTime := 0,
    currentTime := 0, stats := ConnStats.init }

/-- `SetState`. -/
def setState (c : NetConnection) (state : ConnectionState) : NetConnection :=
  { c with state := state }

/-- `NetConnection::SendPacket`: stamp `m_outgoingSequence++` (u32),
append to the outgoing queue, and retain reliables in `m_reliableBuffer`
keyed by the sequence. -/
def sendPacket (c : NetConnection) (packet : Packet) (reliable : Bool) :
    NetConnection :=
  let outPacket := packet.setSequence c.outgoingSequence
  { c with
    outgoingSequence := (c.outgoingSequence + 1) % 2 ^ 32,
    outgoingQueue := c.outgoingQueue ++ [outPacket],
    reliableBuffer :=
      if reliable then insertA c.reliableBuffer outPacket.header.sequence outPacket
      else c.reliableBuffer }

/-- The acknowledgement packet built by `SendAcknowledgement`:
`Packet(Acknowledgement)` with the acked sequence written as u32. -/
def mkAckPacket (sequence : Nat) : Packet :=
  { Packet.mkOfType pkAcknowledgement with
    payload := BitStream.empty.writeUInt32 sequence }

/-- `NetConnection::SendAcknowledgement`: unreliable send of the ack. -/
def sendAcknowledgement (c : NetConnection) (sequence : Nat) : NetConnection :=
  c.sendPacket (mkAckPacket sequence) false

/-- `NetConnection::ProcessAcknowledgement`: read the acked sequence from
the payload; when retained, erase it and fold the RTT estimate
`rtt := 0.9*rtt + 0.1*(now - lastSend)`. -/
def processAcknowledgement (c : NetConnection) (packet : Packet) :
    NetConnection :=
  let ackedSequence := (packet.payload.readUInt32).1
  match lookupA c.reliableBuffer ackedSequence with
  | some _ =>
      { c with
        reliableBuffer := eraseA c.reliableBuffer ackedSequence,
        roundTripTime :=
          c.roundTripTime * (9 / 10 : Rat)
            + (c.currentTime - c.lastSendTime) * (1 / 10 : Rat) }
  | none => c

/-- `NetConnection::ReceivePacket`: bump the receive clock and counter,
track the highest incoming sequence, acknowledge every kind that is
neither `Acknowledgement` nor `Heartbeat`, and consume acks. -/
def receivePacket (c : NetConnection) (packet : Packet) : NetConnection :=
  let c1 := { c with lastReceiveTime := c.currentTime,
                     stats := { c.stats with
                       packetsReceived := c.stats.packetsReceived + 1 } }
  let sequence := packet.header.sequence
  let c2 := if c1.incomingSequence < sequence
            then { c1 with incomingSequence := sequence } else c1
  let c3 := if packet.header.packetType ≠ pkAcknowledgement ∧
               packet.header.packetType ≠ pkHeartbeat
            then c2.sendAcknowledgement sequence else c2
  if packet.header.packetType = pkAcknowledgement
  then c3.processAcknowledgement packet else c3

/-- `NetConnection::Tick`. -/
def tick (c : NetConnection) (deltaTime : Rat) : NetConnection :=
  { c with currentTime := c.currentTime + deltaTime }

/-- `IsTimedOut(timeout)`. -/
def isTimedOut (c : NetConnection) (timeout : Rat) : Bool :=
  timeout < c.currentTime - c.lastReceiveTime

end NetConnection

/-! ## Transport driver (include/wvnet/NetDriver.h, src/NetDriver.cpp)

The three user callbacks are modelled as an event log; a raw
`m_socket.SendTo` outside any connection is logged in `rawSent`. -/

inductive NetworkMode
  | Standalone
  | Server
  | Client
deriving DecidableEq, Repr

inductive DriverEvent
  | onConnection (address : Nat)
  | onDisconnection (address : Nat)
  | onPacket (address : Nat) (packet : Packet)
deriving DecidableEq, Repr

structure NetDriver where
  mode : NetworkMode
  maxConnections : Nat
  connections : List NetConnection
  serverConnection : Option Nat
  rawSent : List (Nat × List Nat)
  events : List DriverEvent
deriving DecidableEq, Repr

namespace NetDriver

def isServer (d : NetDriver) : Bool := d.mode = NetworkMode.Server

def isClient (d : NetDriver) : Bool := d.mode = NetworkMode.Client

/-- `FindConnection(address)`: first connection with that address. -/
def findConnection (d : NetDriver) (address : Nat) : Option NetConnection :=
  d.connections.find? (fun c => c.address = address)

/-- Replace the first connection with the given address (the C++ mutates
the found connection in place through its pointer). -/
def updateConnection : List NetConnection → Nat → NetConnection →
    List NetConnection
  | [], _, _ => []
  | c :: rest, address, c' =>
      if c.address = address then c' :: rest
      else c :: updateConnection rest address c'

/-- `CreateConnection`: a fresh `NetConnection` appended to both
containers. -/
def createConnection (d : NetDriver) (address : Nat) :
    NetDriver × NetConnection :=
  let c := NetConnection.mk' address
  ({ d with connections := d.connections ++ [c] }, c)

/-- `RemoveConnection`: drop the first connection with this address and
clear `m_serverConnection` when it pointed there. -/
def removeConnection (d : NetDriver) (address : Nat) : NetDriver :=
  { d with
    connections := removeFirst d.connections address,
    serverConnection :=
      if d.serverConnection = some address then none else d.serverConnection }
where
  removeFirst : List NetConnection → Nat → List NetConnection
    | [], _ => []
    | c :: rest, addr => if c.address = addr then rest else c :: removeFirst rest addr

/-- `NetDriver::HandleConnectionRequest`: ignore known peers; at capacity
send a raw `ConnectionDenied` datagram and create no state; otherwise
create the connection, promote it to `Connected`, queue a reliable
`ConnectionAccept`, and fire the connection callback. -/
def handleConnectionRequest (d : NetDriver) (from' : Nat) (_packet : Packet) :
    NetDriver :=
  if (d.findConnection from').isSome then d
  else if d.maxConnections ≤ d.connections.length then
    { d with
      rawSent := d.rawSent ++ [(from', (Packet.mkOfType pkConnectionDenied).toBytes)] }
  else
    let newConnection :=
      ((NetConnection.mk' from').setState ConnectionState.Connected).sendPacket
        (Packet.mkOfType pkConnectionAccept) true
    { d with
      connections := d.connections ++ [newConnection],
      events := d.events ++ [DriverEvent.onConnection from'] }

/-- `NetDriver::HandleDisconnect`: disconnection callback, then removal. -/
def handleDisconnect (d : NetDriver) (address : Nat) : NetDriver :=
  (removeConnection
      { d with events := d.events ++ [DriverEvent.onDisconnection address] })
    address

/-- The per-datagram dispatch of `NetDriver::ReceivePackets` (lines after
a successful `Packet::Deserialize`): connection requests and accepts and
disconnects are intercepted; everything else reaches
`NetConnection::ReceivePacket` plus the packet callback, and only when a
connection for the sender exists. -/
def dispatchPacket (d : NetDriver) (from' : Nat) (packet : Packet) : NetDriver :=
  let conn := d.findConnection from'
  if packet.header.packetType = pkConnectionRequest then
    if d.isServer then d.handleConnectionRequest from' packet else d
  else if packet.header.packetType = pkConnectionAccept then
    if d.isClient then
      match d.serverConnection with
      | some address =>
          match d.findConnection address with
          | some sc =>
              { d with
                connections :=
                  updateConnection d.connections address
                    (sc.setState ConnectionState.Connected),
                events := d.events ++ [DriverEvent.onConnection address] }
          | none => d
      | none => d
    else d
  else if packet.header.packetType = pkDisconnect then
    match conn with
    | some c => d.handleDisconnect c.address
    | none => d
  else
    match conn with
    | some c =>
        { d with
          connections := updateConnection d.connections from' (c.receivePacket packet),
          events := d.events ++ [DriverEvent.onPacket from' packet] }
    | none => d

/-- One iteration of the receive loop of `NetDriver::ReceivePackets` for a
datagram from `from'`: `recvfrom` into the 2·`MAX_PACKET_SIZE` buffer
(larger datagrams are truncated by the socket), `Packet::Deserialize`,
drop on failure, else dispatch.  No size check is performed. -/
def receiveDatagram (d : NetDriver) (from' : Nat) (datagram : List Nat) :
    NetDriver :=
  let data := datagram.take (2 * MAX_PACKET_SIZE)
  let r := Packet.default.deserialize (BitStream.ofBytes data)
  if r.1 then d.dispatchPacket from' r.2.1 else d

end NetDriver

/-! ## Actor registry / World (include/wvnet/World.h, src/World.cpp)

Actor objects are heap values; their identity (`Actor*`) is a `Nat` key
into `store`, allocated by `nextKey` (modelling `new`).  `m_actors` (the
owned `unique_ptr` vector) and `m_actorList` hold keys; `m_actorsByNetId`
maps NetIds to keys.  The `OnSpawn`/`Tick`/`OnDestroy` hooks are logged as
events. -/

/-- The actor fields that matter to the embedded operations; transform
components are stored as their float bit patterns. -/
structure WActor where
  netId : Nat
  replicates : Bool
  position : List Nat
  rotation : List Nat
deriving DecidableEq, Repr

/-- The `Actor::Actor()` constructor: netId 0, `m_replicates` false,
position `(0,0,0)`, rotation `(1,0,0,0)` (1.0f has pattern 0x3F800000). -/
def WActor.init : WActor :=
  { netId := 0, replicates := false,
    position := List.replicate 12 0,
    rotation := natToBytesLE 4 0x3F800000 ++ List.replicate 12 0 }

inductive WorldEvent
  | spawned (key : Nat)
  | ticked (key : Nat)
  | destroyed (key : Nat)
deriving DecidableEq, Repr

structure World where
  store : List (Nat × WActor)
  actors : List Nat
  actorList : List Nat
  actorsByNetId : List (Nat × Nat)
  factories : List (List Nat)
  nextNetId : Nat
  pendingDestroy : List Nat
  nextKey : Nat
  events : List WorldEvent
deriving DecidableEq, Repr

namespace World

/-- A `World()` with `m_nextNetId = 1` and registered factory type names. -/
def init (factories : List (List Nat)) : World :=
  { store := [], actors := [], actorList := [], actorsByNetId := [],
    factories := factories, nextNetId := 1, pendingDestroy := [],
    nextKey := 1, events := [] }

/-- `GetActorByNetId`. -/
def getActorByNetId (w : World) (netId : Nat) : Option Nat :=
  lookupA w.actorsByNetId netId

/-- The actor data behind a key. -/
def actorData (w : World) (key : Nat) : Option WActor := lookupA w.store key

/-- Overwrite the data of an existing actor (a mutation through `Actor*`). -/
def setActorData (w : World) (key : Nat) (a : WActor) : World :=
  { w with store := insertA w.store key a }

/-- `World::SpawnActor`: assign `GenerateNetId()` (`m_nextNetId++`, u32),
add to the id-map, the iteration list and the owned set, run `OnSpawn`.
The actor value is freshly `new`-allocated by the caller. -/
def spawnActor (w : World) (a : WActor) : World × Nat :=
  let key := w.nextKey
  let a1 := { a with netId := w.nextNetId }
  ({ w with
      store := insertA w.store key a1,
      actorsByNetId := insertA w.actorsByNetId a1.netId key,
      actorList := w.actorList ++ [key],
      actors := w.actors ++ [key],
      nextNetId := (w.nextNetId + 1) % 2 ^ 32,
      nextKey := key + 1,
      events := w.events ++ [WorldEvent.spawned key] },
   key)

/-- `World::SpawnActorByType`: look the factory up, construct a default
actor, spawn it; `none` when the type name is unregistered. -/
def spawnActorByType (w : World) (typeName : List Nat) : World × Option Nat :=
  if typeName ∈ w.factories then
    let r := w.spawnActor WActor.init
    (r.1, some r.2)
  else (w, none)

/-- `World::DestroyActor`: idempotent append to the pending-destroy
list. -/
def destroyActor (w : World) (key : Nat) : World :=
  if key ∈ w.pendingDestroy then w
  else { w with pendingDestroy := w.pendingDestroy ++ [key] }

/-- `World::DestroyActorById`. -/
def destroyActorById (w : World) (netId : Nat) : World :=
  match w.getActorByNetId netId with
  | some key => w.destroyActor key
  | none => w

/-- The live NetIds, in iteration order. -/
def liveNetIds (w : World) : List Nat :=
  w.actorList.filterMap (fun key => (lookupA w.store key).map WActor.netId)

/-- A destroy request issued from inside a tick hook: `destroy(actor)` or
`destroy-by-id(netId)`. -/
inductive DestroyReq
  | byActor (key : Nat)
  | byId (netId : Nat)
deriving DecidableEq, Repr

def applyReq (w : World) : DestroyReq → World
  | DestroyReq.byActor key => w.destroyActor key
  | DestroyReq.byId netId => w.destroyActorById netId

/-- The first phase of `World::Tick`: run every live actor's `Tick` hook
in insertion order; a hook is modelled by the destroy requests it issues
(the only World mutations the claims exercise). -/
def runTickHooks (w : World) (behav : Nat → List DestroyReq) : World :=
  w.actorList.foldl
    (fun acc key =>
      (behav key).foldl applyReq
        { acc with events := acc.events ++ [WorldEvent.ticked key] })
    w

/-- One step of the destroy pass: `OnDestroy`, erase the id-map entry
keyed by the actor's current NetId, remove from the iteration list and
the owned set.  (The freed heap cell stays in `store`; nothing reads it
afterwards.) -/
def destroyStep (acc : World) (key : Nat) : World :=
  let netId := match lookupA acc.store key with
    | some a => a.netId
    | none => 0
  { acc with
    events := acc.events ++ [WorldEvent.destroyed key],
    actorsByNetId := eraseA acc.actorsByNetId netId,
    actorList := acc.actorList.filter (fun k => k ≠ key),
    actors := acc.actors.filter (fun k => k ≠ key) }

/-- The second phase of `World::Tick`: process the pending destroys, then
clear the list. -/
def destroyPass (w : World) : World :=
  { w.pendingDestroy.foldl destroyStep w with pendingDestroy := [] }

/-- `World::Tick`: hooks first, destroy pass second. -/
def tickWorld (w : World) (behav : Nat → List DestroyReq) : World :=
  (w.runTickHooks behav).destroyPass

end World

/-- `ReplicationManager::HandleActorSpawn`: read the quadruple, spawn by
type name, then overwrite the NetId with the wire value (note: without
updating `m_actorsByNetId`), set the transform and `replicates`. -/
def handleActorSpawn (w : World) (payload : BitStream) : World :=
  let r1 := payload.readUInt32
  let r2 := r1.2.readString
  let r3 := r2.2.readVector3
  let r4 := r3.2.readQuaternion
  let s := w.spawnActorByType r2.1
  match s.2 with
  | some key =>
      match s.1.actorData key with
      | some a =>
          s.1.setActorData key
            { a with
              netId := r1.1,
              position := natToBytesLE 4 r3.1.1 ++ natToBytesLE 4 r3.1.2.1
                ++ natToBytesLE 4 r3.1.2.2,
              rotation := natToBytesLE 4 r4.1.1 ++ natToBytesLE 4 r4.1.2.1
                ++ natToBytesLE 4 r4.1.2.2.1 ++ natToBytesLE 4 r4.1.2.2.2,
              replicates := true }
      | none => s.1
  | none => s.1

/-! ## RPC dispatch (src/RPCManager.cpp) -/

/-- `RPCType` values: Server, Client, Multicast. -/
def rpcServer : Nat := 0

def rpcClient : Nat := 1

def rpcMulticast : Nat := 2

/-- The `switch (metadata.type)` of `ProcessRPC`: the expected packet type
starts as `RPCServer` and is only changed by a matching case. -/
def rpcExpectedPacketType (t : Nat) : Nat :=
  if t = rpcServer then pkRPCServer
  else if t = rpcClient then pkRPCClient
  else if t = rpcMulticast then pkRPCMulticast
  else pkRPCServer

/-- The actor NetId parsed by `ProcessRPC`. -/
def rpcParsedNetId (packet : Packet) : Nat := (packet.payload.readUInt32).1

/-- The function name parsed by `ProcessRPC`. -/
def rpcParsedName (packet : Packet) : List Nat :=
  (((packet.payload.readUInt32).2).readString).1

/-- `RPCManager::ProcessRPC`: read `actorNetId` and the function name,
drop when the actor or the handler is unknown or the packet kind differs
from the declared RPC kind; otherwise invoke the handler on the actor
with the remaining payload bytes (the returned invocation record). -/
def processRPC (registry : List (List Nat × Nat)) (w : World) (packet : Packet) :
    Option (Nat × List Nat) :=
  let r1 := packet.payload.readUInt32
  let r2 := r1.2.readString
  match w.getActorByNetId r1.1 with
  | none => none
  | some actorKey =>
      match lookupA registry r2.1 with
      | none => none
      | some declaredType =>
          if packet.header.packetType ≠ rpcExpectedPacketType declaredType then
            none
          else
            some (actorKey,
              (r2.2.buffer.drop r2.2.readPos).take (r2.2.writePos - r2.2.readPos))

/-! ## Concrete scenario inputs

Closed inputs used by the counterexamples and witnesses below; each is
built purely from the embedded operations. -/

/-- A registered `int32` property named "HP" of size 4. -/
def c1Prop : ReplicatedProperty := mkReplicatedProperty [72, 80] propInt32 4

/-- The sender side of `SendActorUpdate` for one changed property:
`netId = 1`, `changedCount = 1`, then `Serialize` of "HP" with value 100. -/
def c1SenderPayload : BitStream :=
  ReplicatedProperty.serializeProp c1Prop (natToBytesLE 4 100)
    ((BitStream.empty.writeUInt32 1).writeUInt32 1)

/-- A receiving actor (NetId 1) with "HP" registered and current memory
`[7, 7, 7, 7]`. -/
def c1Actors : List (Nat × List (List Nat × PropSlot)) :=
  [(1, [([72, 80], ⟨c1Prop, [7, 7, 7, 7]⟩)])]

/-- A server driver that already knows peer 5 (state `Connected`). -/
def c2Driver : NetDriver :=
  { mode := NetworkMode.Server, maxConnections := 64,
    connections := [(NetConnection.mk' 5).setState ConnectionState.Connected],
    serverConnection := none, rawSent := [], events := [] }

/-- A 1500-byte datagram with valid magic: a `ConnectionRequest` header
declaring 1488 payload bytes, followed by those bytes. -/
def c4Datagram : List Nat :=
  natToBytesLE 4 PACKET_MAGIC ++ natToBytesLE 4 0
    ++ natToBytesLE 2 pkConnectionRequest ++ natToBytesLE 2 1488
    ++ List.replicate 1488 0

/-- An empty server driver with the default connection limit. -/
def c4Server : NetDriver :=
  { mode := NetworkMode.Server, maxConnections := 64, connections := [],
    serverConnection := none, rawSent := [], events := [] }

/-- A client-side world with one registered type name and one locally
spawned actor (which received NetId 1). -/
def c5World : World := ((World.init [[80, 108]]).spawnActorByType [80, 108]).1

/-- An `ActorSpawn` payload carrying wire NetId 1 and the registered type
name, with zero position and rotation patterns. -/
def c5SpawnPayload : BitStream :=
  BitStream.ofBytes (natToBytesLE 4 1 ++ (natToBytesLE 4 2 ++ [80, 108])
    ++ List.replicate 12 0 ++ List.replicate 16 0)

/-- A world holding one live actor with NetId 1. -/
def c6World : World := (((World.init [])).spawnActor WActor.init).1

/-- A registry where "Fi" is declared as a Client RPC. -/
def c6Registry : List (List Nat × Nat) := [([70, 105], rpcClient)]

/-- An inbound packet of kind `RPCServer` naming actor 1 and "Fi". -/
def c6Packet : Packet :=
  { header := { magic := PACKET_MAGIC, sequence := 0,
                packetType := pkRPCServer, payloadSize := 0 },
    payload := (BitStream.empty.writeUInt32 1).writeString [70, 105] }

/-- A server driver at capacity: limit 1, one known peer. -/
def c8Driver : NetDriver :=
  { mode := NetworkMode.Server, maxConnections := 1,
    connections := [(NetConnection.mk' 5).setState ConnectionState.Connected],
    serverConnection := none, rawSent := [], events := [] }

/-- A world with two live actors (keys and NetIds 1 and 2). -/
def c9World : World :=
  (((World.init []).spawnActor WActor.init).1.spawnActor WActor.init).1

/-- Tick behaviour: actor 1 destroys actor 2 twice during its hook. -/
def c9Behav : Nat → List World.DestroyReq :=
  fun key => if key = 1
    then [World.DestroyReq.byActor 2, World.DestroyReq.byActor 2] else []

/-- A well-formed packet (valid magic, u32 payload 77) used to witness the
wire round trip. -/
def c3Packet : Packet :=
  { header := { magic := PACKET_MAGIC, sequence := 7, packetType := 22,
                payloadSize := 0 },
    payload := BitStream.empty.writeUInt32 77 }

/-- A packet whose payload holds recognisable bytes. -/
def c10Packet : Packet :=
  { header := PacketHeader.init, payload := BitStream.ofBytes [9, 9] }

/-- An input stream: valid magic, sequence 7, kind 3, declared payload of
100 bytes — but no payload bytes follow. -/
def c10Stream : BitStream :=
  BitStream.ofBytes (natToBytesLE 4 PACKET_MAGIC ++ natToBytesLE 4 7
    ++ natToBytesLE 2 3 ++ natToBytesLE 2 100)

/-! ## Theorems

Everything below is a proof about the definitions above: first the
codec lemmas, then the claim theorems with their witnesses. -/

theorem length_natToBytesLE (w v : Nat) : (natToBytesLE w v).length = w := by
  induction w generalizing v with
  | zero => rfl
  | succ k ih => simp [natToBytesLE, ih]

theorem bytesToNatLE_natToBytesLE (w v : Nat) :
    bytesToNatLE (natToBytesLE w v) = v % 2 ^ (8 * w) := by
  induction w generalizing v with
  | zero => simp [natToBytesLE, bytesToNatLE, Nat.mod_one]
  | succ k ih =>
    have hexp : 8 * (k + 1) = 8 * k + 8 := by ring
    have hpow : 2 ^ (8 * (k + 1)) = 256 * 2 ^ (8 * k) := by
      rw [hexp, Nat.pow_add]; norm_num [Nat.mul_comm]
    simp only [natToBytesLE, bytesToNatLE, ih, hpow]
    rw [Nat.mod_mul]

theorem bytesToNatLE_natToBytesLE_of_lt {w v : Nat} (h : v < 2 ^ (8 * w)) :
    bytesToNatLE (natToBytesLE w v) = v := by
  rw [bytesToNatLE_natToBytesLE, Nat.mod_eq_of_lt h]

theorem toSigned_intToTwosComp {w : Nat} (hw : 0 < w) {v : Int}
    (hlo : -(2 ^ (8 * w - 1)) ≤ v) (hhi : v < 2 ^ (8 * w - 1)) :
    toSigned w (intToTwosComp w v) = v := by
  obtain ⟨m, hm⟩ : ∃ m, 8 * w = m + 1 := ⟨8 * w - 1, by omega⟩
  have hm1 : 8 * w - 1 = m := by omega
  unfold toSigned intToTwosComp
  rw [hm1] at hlo hhi
  rw [hm1, hm]
  have hMI : (2 : Int) ^ (m + 1) = 2 * 2 ^ m := by rw [pow_succ]; ring
  have hb : (((2 : Nat) ^ m : Nat) : Int) = (2 : Int) ^ m := by push_cast; ring
  have hMpos : (0 : Int) < 2 ^ (m + 1) := by positivity
  have hmod : v % (2 : Int) ^ (m + 1) = if 0 ≤ v then v else v + 2 ^ (m + 1) := by
    split
    · exact Int.emod_eq_of_lt (by assumption) (by omega)
    · have key : (v + 2 ^ (m + 1) * 1) % (2 : Int) ^ (m + 1) = v % 2 ^ (m + 1) :=
        Int.add_mul_emod_self_left v (2 ^ (m + 1)) 1
      rw [mul_one] at key
      rw [← key]
      exact Int.emod_eq_of_lt (by omega) (by omega)
  rw [hmod]
  by_cases hv : 0 ≤ v
  · rw [if_pos hv]
    have hlt : v.toNat < 2 ^ m := by omega
    rw [if_pos hlt]
    omega
  · rw [if_neg hv]
    have hge : ¬ ((v + 2 ^ (m + 1)).toNat < 2 ^ m) := by omega
    rw [if_neg hge]
    omega

theorem BitStream.wf_empty : BitStream.empty.wf := by
  simp [BitStream.empty, BitStream.wf]

theorem BitStream.wf_ofBytes (l : List Nat) : (BitStream.ofBytes l).wf := by
  simp [BitStream.ofBytes, BitStream.wf]

theorem BitStream.rest_ofBytes (l : List Nat) : (BitStream.ofBytes l).rest = l := by
  simp [BitStream.ofBytes, BitStream.rest]

theorem BitStream.length_ensureCapacity (s : BitStream) (n : Nat) :
    (s.ensureCapacity n).length = max s.buffer.length (s.writePos + n) := by
  unfold BitStream.ensureCapacity
  split <;> (try simp only [List.length_append, List.length_replicate]) <;> omega

theorem BitStream.take_ensureCapacity {s : BitStream} (hwf : s.wf) (n : Nat) :
    (s.ensureCapacity n).take s.writePos = s.buffer.take s.writePos := by
  unfold BitStream.wf at hwf
  unfold BitStream.ensureCapacity
  split
  · rw [List.take_append_of_le_length (by omega)]
  · rfl

theorem BitStream.length_take_ensureCapacity {s : BitStream} (hwf : s.wf)
    (n : Nat) : ((s.ensureCapacity n).take s.writePos).length = s.writePos := by
  unfold BitStream.wf at hwf
  rw [List.length_take, BitStream.length_ensureCapacity]
  omega

theorem BitStream.wf_writeBytes {s : BitStream} (hwf : s.wf) (bs : List Nat) :
    (s.writeBytes bs).wf := by
  have h1 := BitStream.length_take_ensureCapacity hwf bs.length
  unfold BitStream.wf
  unfold BitStream.writeBytes
  simp only [List.length_append, h1]
  omega

theorem BitStream.writeBytes_readPos (s : BitStream) (bs : List Nat) :
    (s.writeBytes bs).readPos = s.readPos := rfl

theorem BitStream.writeBytes_writePos (s : BitStream) (bs : List Nat) :
    (s.writeBytes bs).writePos = s.writePos + bs.length := rfl

/-- After a `Write`, the unread span has grown by exactly the written
bytes. -/
theorem BitStream.rest_writeBytes {s : BitStream} (hwf : s.wf)
    (hrw : s.readPos ≤ s.writePos) (bs : List Nat) :
    (s.writeBytes bs).rest = s.rest ++ bs := by
  have hwf0 := hwf
  unfold BitStream.wf at hwf
  have hpref := BitStream.take_ensureCapacity hwf0 bs.length
  have hlenpref := BitStream.length_take_ensureCapacity hwf0 bs.length
  unfold BitStream.writeBytes BitStream.rest
  simp only
  rw [List.drop_append_eq_append_drop, hlenpref]
  have h0 : s.readPos - s.writePos = 0 := by omega
  rw [h0, List.drop_zero]
  have hd1 : ((s.ensureCapacity bs.length).take s.writePos).drop s.readPos =
      (s.buffer.drop s.readPos).take (s.writePos - s.readPos) := by
    rw [hpref, List.drop_take]
  rw [hd1]
  have hlen2 : ((s.buffer.drop s.readPos).take (s.writePos - s.readPos)).length
      = s.writePos - s.readPos := by
    rw [List.length_take, List.length_drop]
    omega
  have harith : s.writePos + bs.length - s.readPos
      = (s.writePos - s.readPos) + bs.length := by omega
  rw [harith, List.take_append_eq_append_take, hlen2,
    List.take_of_length_le (by omega)]
  have h3 : (s.writePos - s.readPos) + bs.length - (s.writePos - s.readPos)
      = bs.length := by omega
  rw [h3, List.take_append_eq_append_take, List.take_length, Nat.sub_self,
    List.take_zero, List.append_nil]

/-- After a `Write`, the bytes visible through `GetData()/GetSize()` have
grown by exactly the written bytes. -/
theorem BitStream.bytes_writeBytes {s : BitStream} (hwf : s.wf)
    (bs : List Nat) : (s.writeBytes bs).bytes = s.bytes ++ bs := by
  have hpref := BitStream.take_ensureCapacity hwf bs.length
  have hlenpref := BitStream.length_take_ensureCapacity hwf bs.length
  unfold BitStream.writeBytes BitStream.bytes
  simp only
  rw [List.take_append_eq_append_take, hlenpref,
    List.take_of_length_le (by omega)]
  have h1 : s.writePos + bs.length - s.writePos = bs.length := by omega
  rw [h1, List.take_append_eq_append_take, List.take_length, Nat.sub_self,
    List.take_zero, List.append_nil, hpref]

theorem BitStream.rest_length {s : BitStream} (hwf : s.wf) :
    s.rest.length = s.writePos - s.readPos := by
  unfold BitStream.wf at hwf
  unfold BitStream.rest
  rw [List.length_take, List.length_drop]
  omega


theorem BitStream.wf_advance {s : BitStream} (hwf : s.wf) (n : Nat) :
    (s.advance n).wf := hwf

theorem BitStream.rest_advance {s : BitStream} (hwf : s.wf) {n : Nat}
    (hn : s.readPos + n ≤ s.writePos) :
    (s.advance n).rest = s.rest.drop n := by
  unfold BitStream.wf at hwf
  unfold BitStream.advance BitStream.rest
  simp only
  rw [List.drop_take, ← List.drop_drop]
  congr 1
  omega

theorem BitStream.take_rest {s : BitStream} (hwf : s.wf) {n : Nat}
    (hn : s.readPos + n ≤ s.writePos) :
    (s.buffer.drop s.readPos).take n = s.rest.take n := by
  unfold BitStream.wf at hwf
  unfold BitStream.rest
  rw [List.take_take]
  congr 1
  omega

/-- Reading `w` bytes from a stream whose unread span starts with the
little-endian image of `v` yields `v % 2^(8w)` and consumes exactly that
image. -/
theorem BitStream.readUInt_rest {s : BitStream} {w v : Nat} {tail : List Nat}
    (hwf : s.wf) (hw : 0 < w) (h : s.rest = natToBytesLE w v ++ tail) :
    s.readUInt w = (v % 2 ^ (8 * w), s.advance w) ∧
      (s.advance w).rest = tail ∧ (s.advance w).wf := by
  have hrl : s.rest.length = s.writePos - s.readPos := BitStream.rest_length hwf
  have hLE : (natToBytesLE w v).length = w := length_natToBytesLE w v
  have hlen : s.rest.length = w + tail.length := by
    rw [h, List.length_append, hLE]
  have hcan : s.readPos + w ≤ s.writePos := by omega
  refine ⟨?_, ?_, hwf⟩
  · unfold BitStream.readUInt
    rw [if_pos hcan]
    have hbytes : (s.buffer.drop s.readPos).take w = natToBytesLE w v := by
      rw [BitStream.take_rest hwf hcan, h, List.take_append_of_le_length (by omega),
        List.take_of_length_le (by omega)]
    rw [hbytes, bytesToNatLE_natToBytesLE]
    rfl
  · rw [BitStream.rest_advance hwf hcan, h, List.drop_append_eq_append_drop,
      hLE, List.drop_eq_nil_of_le (by omega), Nat.sub_self, List.drop_zero,
      List.nil_append]

/-- Reading `n > 0` raw bytes from a stream whose unread span starts with a
chunk of that length yields the chunk. -/
theorem BitStream.readBytesRaw_rest {s : BitStream} {chunk tail : List Nat}
    (hwf : s.wf) (hpos : 0 < chunk.length) (h : s.rest = chunk ++ tail) :
    s.readBytesRaw chunk.length = (chunk, s.advance chunk.length) ∧
      (s.advance chunk.length).rest = tail ∧ (s.advance chunk.length).wf := by
  have hrl : s.rest.length = s.writePos - s.readPos := BitStream.rest_length hwf
  have hlen : s.rest.length = chunk.length + tail.length := by
    rw [h, List.length_append]
  have hcan : s.readPos + chunk.length ≤ s.writePos := by omega
  refine ⟨?_, ?_, hwf⟩
  · unfold BitStream.readBytesRaw
    rw [if_pos hcan]
    have hbytes : (s.buffer.drop s.readPos).take chunk.length = chunk := by
      rw [BitStream.take_rest hwf hcan, h, List.take_append_of_le_length (by omega),
        List.take_of_length_le (by omega)]
    rw [hbytes]
    rfl
  · rw [BitStream.rest_advance hwf hcan, h, List.drop_append_eq_append_drop,
      List.drop_eq_nil_of_le (by omega), Nat.sub_self, List.drop_zero,
      List.nil_append]

/-- Reading a string from a stream whose unread span starts with a
length-prefixed string yields the string bytes back. -/
theorem BitStream.readString_rest {s : BitStream} {str tail : List Nat}
    (hwf : s.wf) (hlen : str.length < 2 ^ 32)
    (h : s.rest = natToBytesLE 4 str.length ++ (str ++ tail)) :
    s.readString = (str, (s.advance 4).advance str.length) ∧
      ((s.advance 4).advance str.length).rest = tail ∧
      ((s.advance 4).advance str.length).wf := by
  obtain ⟨h1, h2, h3⟩ := BitStream.readUInt_rest hwf (by norm_num) h
  rw [Nat.mod_eq_of_lt (by exact_mod_cast hlen)] at h1
  unfold BitStream.readString
  rw [show s.readUInt32 = s.readUInt 4 from rfl, h1]
  simp only
  by_cases hz : str.length = 0
  · have hstr : str = [] := List.eq_nil_of_length_eq_zero hz
    subst hstr
    rw [if_pos hz]
    simp only [List.length_nil]
    have hadv : (s.advance 4).advance 0 = s.advance 4 := by
      unfold BitStream.advance
      simp
    rw [hadv]
    refine ⟨rfl, ?_, h3⟩
    simpa using h2
  · rw [if_neg hz]
    obtain ⟨h4, h5, h6⟩ :=
      BitStream.readBytesRaw_rest h3 (Nat.pos_of_ne_zero hz) h2
    have hcanr : (s.advance 4).canRead str.length = true := by
      have hrl := BitStream.rest_length h3
      have : (s.advance 4).rest.length = str.length + tail.length := by
        rw [h2, List.length_append]
      unfold BitStream.canRead
      simp only [decide_eq_true_eq]
      omega
    rw [if_neg (by simp [hcanr])]
    exact ⟨by rw [h4], h5, h6⟩

/-! ### Claim C1: receive-side property decode order -/

/-- Claim C1: the receiver is claimed to read name, then kind, then decode
the value of that kind directly into the property's memory without
rewinding, so that the named property ends up holding the sender's value.
The source instead rewinds the payload cursor to the kind byte before
calling `Deserialize`, which then re-reads name and kind from the wrong
offset: for the sender's update "HP" = 100 (`int32`), the receiving
actor's "HP" memory ends up `[0, 7, 7, 7]` — not the serialized value
`[100, 0, 0, 0]` — and the registered property's metadata is corrupted
(name emptied, kind turned into `Bool`). -/
theorem c1_rewind_bug_eval :
    handleActorUpdate c1Actors (BitStream.ofBytes c1SenderPayload.bytes)
      = [(1, [([72, 80],
          ⟨{ name := [], type := propBool, size := 4,
             lastValue := [0, 7, 7, 7], dirty := false }, [0, 7, 7, 7]⟩)])]
    ∧ [0, 7, 7, 7] ≠ natToBytesLE 4 100 := by
  decide

/-! ### Claim C4: oversize datagrams -/

/-- Claim C4: every datagram longer than `MAX_PACKET_SIZE = 1024` bytes is
claimed to be dropped without processing.  `NetDriver::ReceivePackets`
performs no size check (its receive buffer is `2 * MAX_PACKET_SIZE`): the
1500-byte valid-magic `ConnectionRequest` datagram is fully processed — a
connection is created in state `Connected` and the connect callback
fires. -/
theorem c4_oversize_processed :
    c4Datagram.length = 1500
    ∧ MAX_PACKET_SIZE < c4Datagram.length
    ∧ ((c4Server.receiveDatagram 9 c4Datagram).connections.map
        (fun c => (c.address, c.state)))
        = [(9, ConnectionState.Connected)]
    ∧ (c4Server.receiveDatagram 9 c4Datagram).events
        = [DriverEvent.onConnection 9] := by
  decide

/-! ### Claim C5: NetId uniqueness -/

/-- Claim C5: at most one live actor is claimed to hold a given NetId,
preserved in particular by the client-side `HandleActorSpawn`.  On a world
that already holds a live actor with NetId 1, handling an `ActorSpawn`
carrying wire NetId 1 spawns a second actor and overwrites its NetId with
1 (without updating the id-map): two live actors then hold NetId 1. -/
theorem c5_duplicate_netid_eval :
    (handleActorSpawn c5World c5SpawnPayload).liveNetIds = [1, 1]
    ∧ ¬ (handleActorSpawn c5World c5SpawnPayload).liveNetIds.Nodup := by
  decide

/-! ### Claim C7: first comparison after registration -/

/-- Counterexample to claim C7: the claim says `HasChanged()` is true
immediately after registration regardless of the property's initial
in-memory value, the cached last-value being a sentinel distinct from any
live value.  The constructor zero-fills `lastValue` (`resize(sz)`), so an
all-zero live value compares equal: `HasChanged()` returns false. -/
theorem c7_counterexample :
    (mkReplicatedProperty [72, 80] propInt32 4).hasChanged
        (List.replicate 4 0) = false
    ∧ (mkReplicatedProperty [72, 80] propInt32 4).lastValue
        = List.replicate 4 0 := by
  decide

/-- Claim C7 (amended): immediately after registration the cached
last-value has length `size` and is zero-filled, and `HasChanged()`
reports a change iff `size = 0` or the property's current bytes are not
all zero; the first replication burst therefore transmits the property
unless its initial value is all-zero bytes. -/
theorem c7_amended_first_comparison (name : List Nat) (ty size : Nat)
    (mem : List Nat) (hmem : mem.length = size) :
    (mkReplicatedProperty name ty size).lastValue = List.replicate size 0
    ∧ ((mkReplicatedProperty name ty size).hasChanged mem = true
        ↔ size = 0 ∨ mem ≠ List.replicate size 0) := by
  refine ⟨rfl, ?_⟩
  unfold mkReplicatedProperty ReplicatedProperty.hasChanged
  simp only
  by_cases hz : size = 0
  · subst hz
    simp
  · have hne : List.replicate size (0 : Nat) ≠ [] := by
      simp [List.replicate_eq_nil_iff, hz]
    rw [if_neg hne]
    have h1 : mem.take size = mem := by
      rw [← hmem, List.take_length]
    have h2 : (List.replicate size (0 : Nat)).take size
        = List.replicate size 0 := by
      rw [List.take_of_length_le (by simp)]
    rw [h1, h2]
    simp [hz]

/-- Witness for the amended C7 at a concrete input: a 4-byte property
whose initial memory is not all zero. -/
theorem c7_amended_witness :
    (mkReplicatedProperty [72, 80] propInt32 4).lastValue
        = List.replicate 4 0
    ∧ ((mkReplicatedProperty [72, 80] propInt32 4).hasChanged [1, 2, 3, 4] = true
        ↔ 4 = 0 ∨ [1, 2, 3, 4] ≠ List.replicate 4 0) :=
  c7_amended_first_comparison [72, 80] propInt32 4 [1, 2, 3, 4] (by decide)

/-! ### Claim C2: acknowledgement of received packets -/

/-- Counterexample to claim C2: the claim includes `ConnectionRequest`,
`ConnectionAccept` and `Disconnect` among the kinds that are acknowledged.
A `ConnectionRequest` (sequence 3) arriving from an already-known peer
leaves the driver completely unchanged — in particular no
`Acknowledgement` is enqueued on any connection. -/
theorem c2_counterexample :
    c2Driver.receiveDatagram 5
        ((Packet.mkOfType pkConnectionRequest).setSequence 3).toBytes
      = c2Driver
    ∧ c2Driver.connections.map NetConnection.outgoingQueue = [[]] := by
  decide

/-- Claim C2 (amended): every packet that reaches
`NetConnection::ReceivePacket` whose kind is neither `Acknowledgement` nor
`Heartbeat` causes exactly one `Acknowledgement` carrying the received
sequence as u32 payload to be appended to the connection's outgoing
queue; however `ConnectionRequest` (as well as `ConnectionAccept` and
`Disconnect`) packets are intercepted by the driver dispatch and never
reach `ReceivePacket` — for a known peer the request leaves the driver
unchanged, so no acknowledgement is produced for those kinds. -/
theorem c2_amended_ack (c : NetConnection) (p : Packet) (d : NetDriver)
    (from' : Nat) (q : Packet)
    (h1 : p.header.packetType ≠ pkAcknowledgement)
    (h2 : p.header.packetType ≠ pkHeartbeat)
    (hd : d.mode = NetworkMode.Server)
    (hq : q.header.packetType = pkConnectionRequest)
    (hknown : (d.findConnection from').isSome = true) :
    (c.receivePacket p).outgoingQueue
      = c.outgoingQueue
        ++ [(NetConnection.mkAckPacket p.header.sequence).setSequence
              c.outgoingSequence]
    ∧ d.dispatchPacket from' q = d := by
  constructor
  · unfold NetConnection.receivePacket
    simp only
    rw [if_neg h1, if_pos ⟨h1, h2⟩]
    unfold NetConnection.sendAcknowledgement NetConnection.sendPacket
    split <;> rfl
  · unfold NetDriver.dispatchPacket
    simp only [hq]
    rw [if_pos trivial]
    unfold NetDriver.isServer
    rw [if_pos (by simp [hd])]
    unfold NetDriver.handleConnectionRequest
    rw [if_pos (by simp [hknown])]

/-- Witness for the amended C2: an `ActorReplication` packet with
sequence 3 received on a fresh connection enqueues the acknowledgement,
and a `ConnectionRequest` dispatched for the known peer 5 leaves the
server driver untouched. -/
theorem c2_amended_ack_witness :
    ((NetConnection.mk' 7).receivePacket
        ((Packet.mkOfType pkActorReplication).setSequence 3)).outgoingQueue
      = (NetConnection.mk' 7).outgoingQueue
        ++ [(NetConnection.mkAckPacket
              ((Packet.mkOfType pkActorReplication).setSequence 3).header.sequence).setSequence
              (NetConnection.mk' 7).outgoingSequence]
    ∧ c2Driver.dispatchPacket 5 (Packet.mkOfType pkConnectionRequest) = c2Driver :=
  c2_amended_ack (NetConnection.mk' 7)
    ((Packet.mkOfType pkActorReplication).setSequence 3) c2Driver 5
    (Packet.mkOfType pkConnectionRequest)
    (by decide) (by decide) rfl rfl (by decide)

/-! ### Claim C6: RPC kind safety -/

/-- Claim C6: `ProcessRPC` invokes the handler only when the parsed actor
NetId resolves to a live actor, the parsed function name resolves to a
registered handler, and the packet kind equals the handler's declared RPC
kind; in particular an `RPCServer` packet naming a handler registered as
`Client` or `Multicast` is dropped without invocation. -/
theorem c6_rpc_kind_safety (registry : List (List Nat × Nat)) (w : World)
    (packet : Packet) :
    (∀ r, processRPC registry w packet = some r →
        (w.getActorByNetId (rpcParsedNetId packet)).isSome = true
        ∧ ∃ t, lookupA registry (rpcParsedName packet) = some t
            ∧ packet.header.packetType = rpcExpectedPacketType t)
    ∧ (∀ t, lookupA registry (rpcParsedName packet) = some t →
        (t = rpcClient ∨ t = rpcMulticast) →
        packet.header.packetType = pkRPCServer →
        processRPC registry w packet = none) := by
  constructor
  · intro r hr
    unfold processRPC at hr
    unfold rpcParsedNetId rpcParsedName
    simp only at hr
    split at hr
    · exact absurd hr (by simp)
    · rename_i actorKey hA
      split at hr
      · exact absurd hr (by simp)
      · rename_i t hT
        split at hr
        · exact absurd hr (by simp)
        · rename_i hk
          push_neg at hk
          exact ⟨by simp [hA], t, hT, hk⟩
  · intro t ht hCM hkind
    unfold processRPC
    unfold rpcParsedName at ht
    simp only
    cases hA : w.getActorByNetId (packet.payload.readUInt32).1 with
    | none => rfl
    | some actorKey =>
        cases hT : lookupA registry
            (((packet.payload.readUInt32).2).readString).1 with
        | none => rfl
        | some declaredType =>
            have hdt : declaredType = t := by
              rw [ht] at hT
              exact ((Option.some.injEq _ _).mp hT).symm
            subst hdt
            have hne : packet.header.packetType
                ≠ rpcExpectedPacketType declaredType := by
              rcases hCM with h | h <;> subst h <;> rw [hkind] <;> decide
            exact if_pos hne

/-- Witness for C6: the kind-mismatched `RPCServer` packet naming the
Client-registered "Fi" on live actor 1 is dropped. -/
theorem c6_rpc_kind_safety_witness :
    processRPC c6Registry c6World c6Packet = none :=
  (c6_rpc_kind_safety c6Registry c6World c6Packet).2 rpcClient (by decide)
    (Or.inl rfl) (by decide)

/-! ### Claim C8: connection-request handling -/

/-- Claim C8: `HandleConnectionRequest` ignores already-known peers; at or
above `max-connections` it sends one raw `ConnectionDenied` datagram and
leaves the connection set untouched; otherwise it appends exactly one new
connection — created directly in state `Connected`, with a reliable
`ConnectionAccept` (sequence 0) in its outgoing queue and retention
buffer — and fires the connect callback. -/
theorem c8_capacity_refusal (d : NetDriver) (from' : Nat) (packet : Packet) :
    ((d.findConnection from').isSome = true →
        d.handleConnectionRequest from' packet = d)
    ∧ ((d.findConnection from').isSome = false →
        d.maxConnections ≤ d.connections.length →
        d.handleConnectionRequest from' packet
          = { d with
              rawSent := d.rawSent
                ++ [(from', (Packet.mkOfType pkConnectionDenied).toBytes)] })
    ∧ ((d.findConnection from').isSome = false →
        d.connections.length < d.maxConnections →
        d.handleConnectionRequest from' packet
          = { d with
              connections := d.connections
                ++ [((NetConnection.mk' from').setState
                      ConnectionState.Connected).sendPacket
                    (Packet.mkOfType pkConnectionAccept) true],
              events := d.events ++ [DriverEvent.onConnection from'] })
    ∧ (((NetConnection.mk' from').setState ConnectionState.Connected).sendPacket
          (Packet.mkOfType pkConnectionAccept) true).state
        = ConnectionState.Connected
    ∧ (((NetConnection.mk' from').setState ConnectionState.Connected).sendPacket
          (Packet.mkOfType pkConnectionAccept) true).outgoingQueue
        = [(Packet.mkOfType pkConnectionAccept).setSequence 0]
    ∧ (((NetConnection.mk' from').setState ConnectionState.Connected).sendPacket
          (Packet.mkOfType pkConnectionAccept) true).reliableBuffer
        = [(0, (Packet.mkOfType pkConnectionAccept).setSequence 0)] := by
  refine ⟨?_, ?_, ?_, rfl, rfl, rfl⟩
  · intro h
    unfold NetDriver.handleConnectionRequest
    rw [if_pos (by simp [h])]
  · intro h hcap
    unfold NetDriver.handleConnectionRequest
    rw [if_neg (by simp [h]), if_pos hcap]
  · intro h hcap
    unfold NetDriver.handleConnectionRequest
    rw [if_neg (by simp [h]), if_neg (by omega)]

/-- Witness for C8: the at-capacity case on a server with limit 1 and one
known peer — the request from unknown peer 7 is refused with a raw
`ConnectionDenied` and no connection state. -/
theorem c8_capacity_refusal_witness :
    c8Driver.handleConnectionRequest 7 (Packet.mkOfType pkConnectionRequest)
      = { c8Driver with
          rawSent := c8Driver.rawSent
            ++ [(7, (Packet.mkOfType pkConnectionDenied).toBytes)] } :=
  (c8_capacity_refusal c8Driver 7 (Packet.mkOfType pkConnectionRequest)).2.1
    (by decide) (by decide)

/-! ### Claim C10: non-atomic packet deserialization -/

/-- Claim C10: when `Packet::Deserialize` fails because the declared
`payloadSize` exceeds the remaining input, the packet's header has already
been overwritten with the four parsed fields while the payload member is
left exactly as it was. -/
theorem c10_deserialize_not_atomic (p : Packet) (s : BitStream)
    (hmagic : (PacketHeader.deserialize s).2.2 = true)
    (hpos : 0 < (PacketHeader.deserialize s).1.payloadSize)
    (hshort : (PacketHeader.deserialize s).2.1.canRead
        (PacketHeader.deserialize s).1.payloadSize = false) :
    p.deserialize s
      = (false, { p with header := (PacketHeader.deserialize s).1 },
         (PacketHeader.deserialize s).2.1)
    ∧ ({ p with header := (PacketHeader.deserialize s).1 } : Packet).payload
        = p.payload := by
  refine ⟨?_, rfl⟩
  unfold Packet.deserialize
  simp only
  rw [if_neg (by simp [hmagic]), if_pos hpos, if_pos (by simp [hshort])]

/-- Witness for C10: a 12-byte input declaring 100 payload bytes; the
failed deserialize leaves the parsed header (sequence 7, kind 3, size
100) in place and the payload `[9, 9]` untouched. -/
theorem c10_deserialize_not_atomic_witness :
    c10Packet.deserialize c10Stream
      = (false, { c10Packet with header := (PacketHeader.deserialize c10Stream).1 },
         (PacketHeader.deserialize c10Stream).2.1)
    ∧ ({ c10Packet with header := (PacketHeader.deserialize c10Stream).1 } : Packet).payload
        = c10Packet.payload :=
  c10_deserialize_not_atomic c10Packet c10Stream (by decide) (by decide)
    (by decide)

/-! ### Association-list lemmas -/

theorem lookupA_eq_none {κ α : Type} [DecidableEq κ] (m : List (κ × α)) (k : κ)
    (h : k ∉ m.map Prod.fst) : lookupA m k = none := by
  induction m with
  | nil => rfl
  | cons p rest ih =>
      obtain ⟨k0, v⟩ := p
      simp only [List.map_cons, List.mem_cons, not_or] at h
      unfold lookupA
      rw [if_neg (fun he => h.1 he.symm)]
      exact ih h.2

theorem eraseA_keys_sublist {κ α : Type} [DecidableEq κ] (m : List (κ × α))
    (k : κ) : ((eraseA m k).map Prod.fst).Sublist (m.map Prod.fst) := by
  induction m with
  | nil => simp [eraseA]
  | cons p rest ih =>
      obtain ⟨k0, v⟩ := p
      unfold eraseA
      split
      · exact List.sublist_cons_self _ _
      · simpa using ih.cons₂ k0

theorem eraseA_keys_nodup {κ α : Type} [DecidableEq κ] {m : List (κ × α)}
    (h : (m.map Prod.fst).Nodup) (k : κ) :
    ((eraseA m k).map Prod.fst).Nodup :=
  h.sublist (eraseA_keys_sublist m k)

theorem lookupA_eraseA_self {κ α : Type} [DecidableEq κ] {m : List (κ × α)}
    (h : (m.map Prod.fst).Nodup) (k : κ) : lookupA (eraseA m k) k = none := by
  induction m with
  | nil => rfl
  | cons p rest ih =>
      obtain ⟨k0, v⟩ := p
      simp only [List.map_cons, List.nodup_cons] at h
      unfold eraseA
      split
      · rename_i he
        subst he
        exact lookupA_eq_none rest k0 h.1
      · rename_i he
        unfold lookupA
        rw [if_neg he]
        exact ih h.2

theorem lookupA_eraseA_none {κ α : Type} [DecidableEq κ] {m : List (κ × α)}
    {j : κ} (h : lookupA m j = none) (k : κ) :
    lookupA (eraseA m k) j = none := by
  induction m with
  | nil => rfl
  | cons p rest ih =>
      obtain ⟨k0, v⟩ := p
      unfold lookupA at h
      by_cases he : k0 = j
      · rw [if_pos he] at h
        exact absurd h (by simp)
      · rw [if_neg he] at h
        unfold eraseA
        split
        · exact h
        · unfold lookupA
          rw [if_neg he]
          exact ih h

/-! ### World tick lemmas (towards claim C9) -/

theorem World.applyReq_inv (w : World) (r : World.DestroyReq) :
    (w.applyReq r).store = w.store ∧ (w.applyReq r).actors = w.actors
    ∧ (w.applyReq r).actorList = w.actorList
    ∧ (w.applyReq r).actorsByNetId = w.actorsByNetId
    ∧ (w.applyReq r).events = w.events := by
  cases r with
  | byActor key =>
      simp only [World.applyReq]
      unfold World.destroyActor
      by_cases h : key ∈ w.pendingDestroy
      · rw [if_pos h]; exact ⟨rfl, rfl, rfl, rfl, rfl⟩
      · rw [if_neg h]; exact ⟨rfl, rfl, rfl, rfl, rfl⟩
  | byId netId =>
      simp only [World.applyReq]
      cases hk : w.getActorByNetId netId with
      | none => simp [World.destroyActorById, hk]
      | some key =>
          simp only [World.destroyActorById, hk]
          unfold World.destroyActor
          by_cases h : key ∈ w.pendingDestroy
          · rw [if_pos h]; exact ⟨rfl, rfl, rfl, rfl, rfl⟩
          · rw [if_neg h]; exact ⟨rfl, rfl, rfl, rfl, rfl⟩

theorem World.foldl_applyReq_inv (reqs : List World.DestroyReq) (w : World) :
    (reqs.foldl World.applyReq w).store = w.store
    ∧ (reqs.foldl World.applyReq w).actors = w.actors
    ∧ (reqs.foldl World.applyReq w).actorList = w.actorList
    ∧ (reqs.foldl World.applyReq w).actorsByNetId = w.actorsByNetId
    ∧ (reqs.foldl World.applyReq w).events = w.events := by
  induction reqs generalizing w with
  | nil => exact ⟨rfl, rfl, rfl, rfl, rfl⟩
  | cons r rest ih =>
      obtain ⟨h1, h2, h3, h4, h5⟩ := World.applyReq_inv w r
      obtain ⟨g1, g2, g3, g4, g5⟩ := ih (w.applyReq r)
      exact ⟨g1.trans h1, g2.trans h2, g3.trans h3, g4.trans h4, g5.trans h5⟩

theorem World.applyReq_pending_mono {w : World} {A : Nat}
    (h : A ∈ w.pendingDestroy) (r : World.DestroyReq) :
    A ∈ (w.applyReq r).pendingDestroy := by
  cases r with
  | byActor key =>
      simp only [World.applyReq]
      unfold World.destroyActor
      split
      · exact h
      · exact List.mem_append_left _ h
  | byId netId =>
      simp only [World.applyReq]
      cases hk : w.getActorByNetId netId with
      | none =>
          simp only [World.destroyActorById, hk]
          exact h
      | some key =>
          simp only [World.destroyActorById, hk]
          unfold World.destroyActor
          split
          · exact h
          · exact List.mem_append_left _ h

theorem World.foldl_applyReq_pending_mono {w : World} {A : Nat}
    (h : A ∈ w.pendingDestroy) (reqs : List World.DestroyReq) :
    A ∈ (reqs.foldl World.applyReq w).pendingDestroy := by
  induction reqs generalizing w with
  | nil => exact h
  | cons r rest ih => exact ih (World.applyReq_pending_mono h r)

theorem World.destroyActor_pending_mem (w : World) (A : Nat) :
    A ∈ (w.destroyActor A).pendingDestroy := by
  unfold World.destroyActor
  split
  · assumption
  · simp

theorem World.foldl_applyReq_pending_mem {A : Nat}
    {reqs : List World.DestroyReq} (h : World.DestroyReq.byActor A ∈ reqs)
    (w : World) : A ∈ (reqs.foldl World.applyReq w).pendingDestroy := by
  induction reqs generalizing w with
  | nil => exact absurd h (by simp)
  | cons r rest ih =>
      rcases List.mem_cons.mp h with he | hm
      · subst he
        exact World.foldl_applyReq_pending_mono
          (World.destroyActor_pending_mem w A) rest
      · exact ih hm (w.applyReq r)

theorem World.tickFold_inv (behav : Nat → List World.DestroyReq)
    (l : List Nat) (acc : World) :
    (l.foldl
      (fun a key => (behav key).foldl World.applyReq
        { a with events := a.events ++ [WorldEvent.ticked key] }) acc).store
        = acc.store
    ∧ (l.foldl
        (fun a key => (behav key).foldl World.applyReq
          { a with events := a.events ++ [WorldEvent.ticked key] }) acc).actors
        = acc.actors
    ∧ (l.foldl
        (fun a key => (behav key).foldl World.applyReq
          { a with events := a.events ++ [WorldEvent.ticked key] }) acc).actorList
        = acc.actorList
    ∧ (l.foldl
        (fun a key => (behav key).foldl World.applyReq
          { a with events := a.events ++ [WorldEvent.ticked key] }) acc).actorsByNetId
        = acc.actorsByNetId
    ∧ (l.foldl
        (fun a key => (behav key).foldl World.applyReq
          { a with events := a.events ++ [WorldEvent.ticked key] }) acc).events
        = acc.events ++ l.map WorldEvent.ticked := by
  induction l generalizing acc with
  | nil => exact ⟨rfl, rfl, rfl, rfl, by simp⟩
  | cons k rest ih =>
      simp only [List.foldl_cons]
      obtain ⟨h1, h2, h3, h4, h5⟩ := World.foldl_applyReq_inv (behav k)
        { acc with events := acc.events ++ [WorldEvent.ticked k] }
      obtain ⟨g1, g2, g3, g4, g5⟩ := ih
        ((behav k).foldl World.applyReq
          { acc with events := acc.events ++ [WorldEvent.ticked k] })
      refine ⟨g1.trans h1, g2.trans h2, g3.trans h3, g4.trans h4, ?_⟩
      rw [g5, h5]
      simp

theorem World.runTickHooks_inv (w : World) (behav : Nat → List World.DestroyReq) :
    (w.runTickHooks behav).store = w.store
    ∧ (w.runTickHooks behav).actors = w.actors
    ∧ (w.runTickHooks behav).actorList = w.actorList
    ∧ (w.runTickHooks behav).actorsByNetId = w.actorsByNetId
    ∧ (w.runTickHooks behav).events
        = w.events ++ w.actorList.map WorldEvent.ticked := by
  unfold World.runTickHooks
  exact World.tickFold_inv behav w.actorList w

theorem World.runTickHooks_pending_mem {w : World} {A kr : Nat}
    (behav : Nat → List World.DestroyReq) (hkr : kr ∈ w.actorList)
    (hreq : World.DestroyReq.byActor A ∈ behav kr) :
    A ∈ (w.runTickHooks behav).pendingDestroy := by
  unfold World.runTickHooks
  have aux : ∀ (l : List Nat) (acc : World), kr ∈ l →
      A ∈ (l.foldl
        (fun a key => (behav key).foldl World.applyReq
          { a with events := a.events ++ [WorldEvent.ticked key] }) acc).pendingDestroy := by
    intro l
    induction l with
    | nil => intro acc h; exact absurd h (by simp)
    | cons k rest ih =>
        intro acc h
        rcases List.mem_cons.mp h with he | hm
        · subst he
          have hmem := World.foldl_applyReq_pending_mem hreq
            { acc with events := acc.events ++ [WorldEvent.ticked kr] }
          have aux2 : ∀ (l2 : List Nat) (a2 : World),
              A ∈ a2.pendingDestroy →
              A ∈ (l2.foldl
                (fun a key => (behav key).foldl World.applyReq
                  { a with events := a.events ++ [WorldEvent.ticked key] }) a2).pendingDestroy := by
            intro l2
            induction l2 with
            | nil => intro a2 h2; exact h2
            | cons k2 rest2 ih2 =>
                intro a2 h2
                exact ih2 _ (World.foldl_applyReq_pending_mono
                  (w := { a2 with events := a2.events ++ [WorldEvent.ticked k2] })
                  h2 (behav k2))
          exact aux2 rest _ hmem
        · exact ih _ hm
  exact aux w.actorList w hkr

theorem World.destroyStep_store (acc : World) (k : Nat) :
    (World.destroyStep acc k).store = acc.store := rfl

theorem World.destroyStep_keys_nodup {acc : World}
    (h : (acc.actorsByNetId.map Prod.fst).Nodup) (k : Nat) :
    ((World.destroyStep acc k).actorsByNetId.map Prod.fst).Nodup :=
  eraseA_keys_nodup h _

theorem World.destroyStep_notmem_actorList {acc : World} {A : Nat}
    (h : A ∉ acc.actorList) (k : Nat) :
    A ∉ (World.destroyStep acc k).actorList := by
  intro hmem
  exact h (List.mem_of_mem_filter hmem)

theorem World.destroyStep_notmem_actors {acc : World} {A : Nat}
    (h : A ∉ acc.actors) (k : Nat) :
    A ∉ (World.destroyStep acc k).actors := by
  intro hmem
  exact h (List.mem_of_mem_filter hmem)

theorem World.destroyStep_self_actorList (acc : World) (A : Nat) :
    A ∉ (World.destroyStep acc A).actorList := by
  intro hmem
  have := List.of_mem_filter hmem
  simp at this

theorem World.destroyStep_self_actors (acc : World) (A : Nat) :
    A ∉ (World.destroyStep acc A).actors := by
  intro hmem
  have := List.of_mem_filter hmem
  simp at this

theorem World.destroyStep_lookup_none {acc : World} {j : Nat}
    (h : lookupA acc.actorsByNetId j = none) (k : Nat) :
    lookupA (World.destroyStep acc k).actorsByNetId j = none :=
  lookupA_eraseA_none h _

theorem World.destroyStep_self_lookup {acc : World} {A : Nat} {a : WActor}
    (hnd : (acc.actorsByNetId.map Prod.fst).Nodup)
    (ha : lookupA acc.store A = some a) :
    lookupA (World.destroyStep acc A).actorsByNetId a.netId = none := by
  unfold World.destroyStep
  simp only [ha]
  exact lookupA_eraseA_self hnd a.netId

theorem World.destroyFold_events (pend : List Nat) (acc : World) :
    (pend.foldl World.destroyStep acc).events
      = acc.events ++ pend.map WorldEvent.destroyed := by
  induction pend generalizing acc with
  | nil => simp
  | cons k rest ih =>
      rw [List.foldl_cons, ih]
      show (World.destroyStep acc k).events ++ _ = _
      have hev : (World.destroyStep acc k).events
          = acc.events ++ [WorldEvent.destroyed k] := rfl
      rw [hev]
      simp

theorem World.destroyFold_store (pend : List Nat) (acc : World) :
    (pend.foldl World.destroyStep acc).store = acc.store := by
  induction pend generalizing acc with
  | nil => rfl
  | cons k rest ih => exact (ih _).trans (World.destroyStep_store acc k)

theorem World.destroyFold_notmem (pend : List Nat) {acc : World} {A : Nat}
    (h1 : A ∉ acc.actorList) (h2 : A ∉ acc.actors) :
    A ∉ (pend.foldl World.destroyStep acc).actorList
    ∧ A ∉ (pend.foldl World.destroyStep acc).actors := by
  induction pend generalizing acc with
  | nil => exact ⟨h1, h2⟩
  | cons k rest ih =>
      exact ih (World.destroyStep_notmem_actorList h1 k)
        (World.destroyStep_notmem_actors h2 k)

theorem World.destroyFold_lookup_none (pend : List Nat) {acc : World} {j : Nat}
    (h3 : lookupA acc.actorsByNetId j = none) :
    lookupA (pend.foldl World.destroyStep acc).actorsByNetId j = none := by
  induction pend generalizing acc with
  | nil => exact h3
  | cons k rest ih => exact ih (World.destroyStep_lookup_none h3 k)

theorem World.destroyFold_removes (pend : List Nat) {acc : World} {A : Nat}
    (hmem : A ∈ pend) (hnd : (acc.actorsByNetId.map Prod.fst).Nodup) :
    A ∉ (pend.foldl World.destroyStep acc).actorList
    ∧ A ∉ (pend.foldl World.destroyStep acc).actors
    ∧ (∀ a, lookupA acc.store A = some a →
        lookupA (pend.foldl World.destroyStep acc).actorsByNetId a.netId = none) := by
  induction pend generalizing acc with
  | nil => exact absurd hmem (by simp)
  | cons k rest ih =>
      rcases List.mem_cons.mp hmem with he | hm
      · subst he
        rw [List.foldl_cons]
        have hnm := World.destroyFold_notmem rest
          (World.destroyStep_self_actorList acc A)
          (World.destroyStep_self_actors acc A)
        refine ⟨hnm.1, hnm.2, ?_⟩
        intro a ha
        exact World.destroyFold_lookup_none rest
          (World.destroyStep_self_lookup hnd ha)
      · rw [List.foldl_cons]
        have ih2 := ih hm (World.destroyStep_keys_nodup hnd k)
        refine ⟨ih2.1, ih2.2.1, ?_⟩
        intro a ha
        exact ih2.2.2 a ((World.destroyStep_store acc k).symm ▸ ha)

/-! ### Claim C9: deferred destruction -/

/-- Claim C9: destroying an actor during a tick (here requested from actor
`kr`'s tick hook, possibly repeatedly — `DestroyActor` is idempotent) does
not remove it while the hooks run: after the hook phase all containers are
unchanged and every live actor's hook has run, with `A` merely appended to
the pending-destroy list; only the end-of-tick destroy pass runs `A`'s
destroy hook (after all tick hooks, per the event log) and removes `A`
from the id-map, the iteration list and the owned set. -/
theorem c9_deferred_destroy (w : World) (behav : Nat → List World.DestroyReq)
    (A kr : Nat)
    (hnd : (w.actorsByNetId.map Prod.fst).Nodup)
    (hkr : kr ∈ w.actorList)
    (hreq : World.DestroyReq.byActor A ∈ behav kr) :
    ((w.destroyActor A).destroyActor A = w.destroyActor A)
    ∧ ((w.runTickHooks behav).store = w.store
        ∧ (w.runTickHooks behav).actors = w.actors
        ∧ (w.runTickHooks behav).actorList = w.actorList
        ∧ (w.runTickHooks behav).actorsByNetId = w.actorsByNetId
        ∧ (w.runTickHooks behav).events
            = w.events ++ w.actorList.map WorldEvent.ticked)
    ∧ A ∈ (w.runTickHooks behav).pendingDestroy
    ∧ (A ∉ (w.tickWorld behav).actorList
        ∧ A ∉ (w.tickWorld behav).actors
        ∧ (∀ a, lookupA w.store A = some a →
            lookupA (w.tickWorld behav).actorsByNetId a.netId = none)
        ∧ (w.tickWorld behav).events
            = w.events ++ w.actorList.map WorldEvent.ticked
              ++ ((w.runTickHooks behav).pendingDestroy).map WorldEvent.destroyed) := by
  obtain ⟨hs, ha, hl, hm, he⟩ := World.runTickHooks_inv w behav
  have hpend : A ∈ (w.runTickHooks behav).pendingDestroy :=
    World.runTickHooks_pending_mem behav hkr hreq
  have hnd1 : ((w.runTickHooks behav).actorsByNetId.map Prod.fst).Nodup := by
    rw [hm]; exact hnd
  have hrem := World.destroyFold_removes
    ((w.runTickHooks behav).pendingDestroy) hpend hnd1
  refine ⟨?_, ⟨hs, ha, hl, hm, he⟩, hpend, ?_, ?_, ?_, ?_⟩
  · unfold World.destroyActor
    by_cases h : A ∈ w.pendingDestroy
    · rw [if_pos h, if_pos h]
    · rw [if_neg h]
      rw [if_pos (by simp)]
  · exact hrem.1
  · exact hrem.2.1
  · intro a haA
    have haA1 : lookupA (w.runTickHooks behav).store A = some a := by
      rw [hs]; exact haA
    have := hrem.2.2 a haA1
    exact this
  · show (World.destroyPass (w.runTickHooks behav)).events = _
    unfold World.destroyPass
    simp only
    rw [World.destroyFold_events, he]

/-- Witness for C9 on a two-actor world where actor 1 requests the
destruction of actor 2 twice during its tick hook. -/
theorem c9_deferred_destroy_witness :
    2 ∈ (c9World.runTickHooks c9Behav).pendingDestroy
    ∧ 2 ∉ (c9World.tickWorld c9Behav).actorList
    ∧ (c9World.tickWorld c9Behav).events
        = c9World.events ++ c9World.actorList.map WorldEvent.ticked
          ++ ((c9World.runTickHooks c9Behav).pendingDestroy).map
              WorldEvent.destroyed := by
  have h := c9_deferred_destroy c9World c9Behav 2 1 (by decide) (by decide)
    (by decide)
  exact ⟨h.2.2.1, h.2.2.2.1, h.2.2.2.2.2.2⟩

/-! ### Round-trip lemmas (towards claim C3) -/

theorem BitStream.rest_eq_nil {s : BitStream} (hr : s.readPos = s.writePos) :
    s.rest = [] := by
  unfold BitStream.rest
  rw [hr]
  simp

theorem BitStream.write_chain {s : BitStream} (hwf : s.wf)
    (hrw : s.readPos ≤ s.writePos) (bs : List Nat) :
    (s.writeBytes bs).wf
    ∧ (s.writeBytes bs).readPos ≤ (s.writeBytes bs).writePos
    ∧ (s.writeBytes bs).rest = s.rest ++ bs :=
  ⟨BitStream.wf_writeBytes hwf bs,
   by rw [BitStream.writeBytes_readPos, BitStream.writeBytes_writePos]; omega,
   BitStream.rest_writeBytes hwf hrw bs⟩

/-- Reading an unsigned value just after writing it yields it back. -/
theorem BitStream.readUInt_writeUInt {s : BitStream} (hwf : s.wf)
    (hr : s.readPos = s.writePos) {w v : Nat} (hw : 0 < w)
    (hv : v < 2 ^ (8 * w)) :
    ((BitStream.writeUInt w s v).readUInt w).1 = v := by
  obtain ⟨hwf1, _, hrest⟩ := BitStream.write_chain hwf (le_of_eq hr)
    (natToBytesLE w v)
  rw [BitStream.rest_eq_nil hr] at hrest
  have h2 : (s.writeBytes (natToBytesLE w v)).rest
      = natToBytesLE w v ++ [] := by rw [hrest]; simp
  obtain ⟨h3, _, _⟩ := BitStream.readUInt_rest hwf1 hw h2
  unfold BitStream.writeUInt
  rw [h3]
  exact Nat.mod_eq_of_lt hv

theorem intToTwosComp_lt (w : Nat) (v : Int) :
    intToTwosComp w v < 2 ^ (8 * w) := by
  unfold intToTwosComp
  have h1 : (0 : Int) < 2 ^ (8 * w) := by positivity
  have h2 := Int.emod_lt_of_pos v h1
  have hb : (((2 : Nat) ^ (8 * w) : Nat) : Int) = (2 : Int) ^ (8 * w) := by
    push_cast; ring
  have h6 : ((2 : Int) ^ (8 * w)).toNat = 2 ^ (8 * w) := by
    rw [← hb]; exact Int.toNat_natCast _
  rw [← h6]
  exact (Int.toNat_lt_toNat h1).mpr h2

/-- Reading a signed value just after writing it yields it back, inside
the two's-complement range. -/
theorem BitStream.readInt_writeInt {s : BitStream} (hwf : s.wf)
    (hr : s.readPos = s.writePos) {w : Nat} {v : Int} (hw : 0 < w)
    (hlo : -(2 ^ (8 * w - 1)) ≤ v) (hhi : v < 2 ^ (8 * w - 1)) :
    ((BitStream.writeInt w s v).readInt w).1 = v := by
  have h1 : ((BitStream.writeUInt w s (intToTwosComp w v)).readUInt w).1
      = intToTwosComp w v :=
    BitStream.readUInt_writeUInt hwf hr hw (intToTwosComp_lt w v)
  unfold BitStream.readInt BitStream.writeInt
  simp only
  have heq : BitStream.writeBytes s (natToBytesLE w (intToTwosComp w v))
      = BitStream.writeUInt w s (intToTwosComp w v) := rfl
  rw [heq, h1]
  exact toSigned_intToTwosComp hw hlo hhi

/-- `PacketHeader::Deserialize` on a stream whose unread span carries the
four header fields consumes exactly 12 bytes and reproduces them. -/
theorem PacketHeader.deserialize_rest {s : BitStream} {m sq ty ps : Nat}
    {tail : List Nat} (hwf : s.wf) (hm : m < 2 ^ 32) (hsq : sq < 2 ^ 32)
    (hty : ty < 2 ^ 16) (hps : ps < 2 ^ 16)
    (h : s.rest = natToBytesLE 4 m ++ (natToBytesLE 4 sq
      ++ (natToBytesLE 2 ty ++ (natToBytesLE 2 ps ++ tail)))) :
    PacketHeader.deserialize s
      = ({ magic := m, sequence := sq, packetType := ty, payloadSize := ps },
         (((s.advance 4).advance 4).advance 2).advance 2,
         decide (m = PACKET_MAGIC))
    ∧ ((((s.advance 4).advance 4).advance 2).advance 2).rest = tail
    ∧ ((((s.advance 4).advance 4).advance 2).advance 2).wf := by
  obtain ⟨h1, r1, w1⟩ := BitStream.readUInt_rest hwf (by norm_num) h
  obtain ⟨h2, r2, w2⟩ := BitStream.readUInt_rest w1 (by norm_num) r1
  obtain ⟨h3, r3, w3⟩ := BitStream.readUInt_rest w2 (by norm_num) r2
  obtain ⟨h4, r4, w4⟩ := BitStream.readUInt_rest w3 (by norm_num) r3
  refine ⟨?_, r4, w4⟩
  unfold PacketHeader.deserialize
  simp only [BitStream.readUInt32, BitStream.readUInt16]
  simp [h1, h2, h3, h4, Nat.mod_eq_of_lt hm, Nat.mod_eq_of_lt hsq,
    Nat.mod_eq_of_lt hty, Nat.mod_eq_of_lt hps]
  refine ⟨⟨?_, ?_, ?_, ?_⟩, ?_⟩
  · norm_num at hm; exact hm
  · norm_num at hsq; exact hsq
  · norm_num at hty; exact hty
  · norm_num at hps; exact hps
  · rw [Nat.mod_eq_of_lt (by norm_num at hm; exact hm)]

theorem BitStream.bytes_ofBytes (l : List Nat) :
    (BitStream.ofBytes l).bytes = l := by
  simp [BitStream.ofBytes, BitStream.bytes]

theorem BitStream.bytes_chain {s : BitStream} (hwf : s.wf) (bs : List Nat) :
    (s.writeBytes bs).wf ∧ (s.writeBytes bs).bytes = s.bytes ++ bs :=
  ⟨BitStream.wf_writeBytes hwf bs, BitStream.bytes_writeBytes hwf bs⟩

theorem Packet.payloadBytes_length (P : Packet) (hPw : P.payload.wf) :
    P.payloadBytes.length = P.payload.getSize := by
  unfold Packet.payloadBytes BitStream.bytes BitStream.getSize
  unfold BitStream.wf at hPw
  rw [List.length_take]
  omega

/-- The serialized image of a well-formed packet: the four header fields
followed by the payload bytes. -/
theorem Packet.toBytes_eq (P : Packet) (hPw : P.payload.wf)
    (hPp : P.payload.getSize < 2 ^ 16) :
    P.toBytes = natToBytesLE 4 P.header.magic
      ++ (natToBytesLE 4 P.header.sequence
        ++ (natToBytesLE 2 P.header.packetType
          ++ (natToBytesLE 2 P.payload.getSize ++ P.payloadBytes))) := by
  obtain ⟨wA, bA⟩ := BitStream.bytes_chain BitStream.wf_empty
    (natToBytesLE 4 P.header.magic)
  obtain ⟨wB, bB⟩ := BitStream.bytes_chain wA
    (natToBytesLE 4 P.header.sequence)
  obtain ⟨wC, bC⟩ := BitStream.bytes_chain wB
    (natToBytesLE 2 P.header.packetType)
  obtain ⟨wD, bD⟩ := BitStream.bytes_chain wC
    (natToBytesLE 2 (P.payload.getSize % 2 ^ 16))
  obtain ⟨wE, bE⟩ := BitStream.bytes_chain wD P.payloadBytes
  unfold Packet.toBytes Packet.serialize PacketHeader.serialize
  simp only [BitStream.writeUInt32, BitStream.writeUInt16, BitStream.writeUInt]
  have hPp2 : P.payload.getSize < 65536 := by norm_num at hPp; exact hPp
  by_cases hgs : 0 < P.payload.getSize
  · rw [if_pos hgs]
    rw [bE, bD, bC, bB, bA]
    simp [BitStream.empty, BitStream.bytes]
    rw [Nat.mod_eq_of_lt hPp2]
  · rw [if_neg hgs]
    have hpb : P.payloadBytes = [] := by
      have hl := Packet.payloadBytes_length P hPw
      apply List.eq_nil_of_length_eq_zero
      omega
    rw [bD, bC, bB, bA]
    simp [BitStream.empty, BitStream.bytes, hpb]
    rw [Nat.mod_eq_of_lt hPp2]

/-- Deserializing the serialized image of a well-formed packet succeeds
and reproduces the sequence, the kind, the payload size and the payload
bytes. -/
theorem Packet.deserialize_toBytes (P : Packet)
    (hPm : P.header.magic = PACKET_MAGIC) (hPs : P.header.sequence < 2 ^ 32)
    (hPt : P.header.packetType < 2 ^ 16) (hPw : P.payload.wf)
    (hPp : P.payload.getSize < 2 ^ 16) :
    (Packet.default.deserialize (BitStream.ofBytes P.toBytes)).1 = true
    ∧ (Packet.default.deserialize
        (BitStream.ofBytes P.toBytes)).2.1.header.sequence = P.header.sequence
    ∧ (Packet.default.deserialize
        (BitStream.ofBytes P.toBytes)).2.1.header.packetType
        = P.header.packetType
    ∧ (Packet.default.deserialize
        (BitStream.ofBytes P.toBytes)).2.1.header.payloadSize
        = P.payload.getSize
    ∧ (Packet.default.deserialize
        (BitStream.ofBytes P.toBytes)).2.1.payloadBytes = P.payloadBytes := by
  have hm32 : P.header.magic < 2 ^ 32 := by rw [hPm]; norm_num [PACKET_MAGIC]
  have hs0w : (BitStream.ofBytes P.toBytes).wf := BitStream.wf_ofBytes _
  have hs0r : (BitStream.ofBytes P.toBytes).rest
      = natToBytesLE 4 P.header.magic
        ++ (natToBytesLE 4 P.header.sequence
          ++ (natToBytesLE 2 P.header.packetType
            ++ (natToBytesLE 2 P.payload.getSize ++ P.payloadBytes))) :=
    (BitStream.rest_ofBytes _).trans (Packet.toBytes_eq P hPw hPp)
  obtain ⟨hH, rH, wH⟩ := PacketHeader.deserialize_rest hs0w hm32 hPs hPt hPp hs0r
  have hok : (decide (P.header.magic = PACKET_MAGIC)) = true := by
    simp [hPm]
  have hpblen := Packet.payloadBytes_length P hPw
  unfold Packet.deserialize
  simp only [hH, hok]
  by_cases hgs : 0 < P.payload.getSize
  · have hrl := BitStream.rest_length wH
    rw [rH] at hrl
    have hcr : ((((((BitStream.ofBytes P.toBytes).advance 4).advance 4).advance
        2).advance 2)).canRead P.payload.getSize = true := by
      unfold BitStream.canRead
      simp only [decide_eq_true_eq]
      omega
    have hrb := BitStream.readBytesRaw_rest wH (by omega)
      (show ((((((BitStream.ofBytes P.toBytes).advance 4).advance 4).advance
          2).advance 2)).rest = P.payloadBytes ++ [] by rw [rH]; simp)
    rw [hpblen] at hrb
    refine ⟨?_, ?_, ?_, ?_, ?_⟩ <;>
      simp [hgs, hcr, hrb.1, Packet.payloadBytes, BitStream.bytes_ofBytes]
  · have hgz : P.payload.getSize = 0 := by omega
    have hpb : P.payloadBytes = [] := by
      apply List.eq_nil_of_length_eq_zero
      omega
    refine ⟨?_, ?_, ?_, ?_, ?_⟩ <;>
      simp [hgz, hpb, Packet.payloadBytes, Packet.default, BitStream.empty,
        BitStream.bytes]
    exact Or.inl hgz

/-! ### Claim C3: wire round trip -/

/-- Claim C3: for every supported primitive value, reading from a
`BitStream` immediately after writing it (reader caught up with the
writer) yields the value back — bool, signed and unsigned 8/16/32/64-bit
integers (within their two's-complement ranges), 32- and 64-bit floats
(as bit patterns, which is what the codec copies), length-prefixed
strings, vec3 and quat; and for every packet with well-formed header and
payload, deserializing the serialized bytes succeeds and reproduces the
sequence, the kind, the payload size and the payload bytes. -/
theorem c3_wire_roundtrip (s : BitStream) (hwf : s.wf)
    (hr : s.readPos = s.writePos)
    (b : Bool)
    (u8 : Nat) (h8 : u8 < 2 ^ 8)
    (u16 : Nat) (h16 : u16 < 2 ^ 16)
    (u32 : Nat) (h32 : u32 < 2 ^ 32)
    (u64 : Nat) (h64 : u64 < 2 ^ 64)
    (i8 : Int) (h8lo : -(2 ^ 7) ≤ i8) (h8hi : i8 < 2 ^ 7)
    (i16 : Int) (h16lo : -(2 ^ 15) ≤ i16) (h16hi : i16 < 2 ^ 15)
    (i32 : Int) (h32lo : -(2 ^ 31) ≤ i32) (h32hi : i32 < 2 ^ 31)
    (i64 : Int) (h64lo : -(2 ^ 63) ≤ i64) (h64hi : i64 < 2 ^ 63)
    (f32 : Nat) (hf32 : f32 < 2 ^ 32)
    (f64 : Nat) (hf64 : f64 < 2 ^ 64)
    (str : List Nat) (hstr : str.length < 2 ^ 32)
    (v3 : Nat × Nat × Nat) (hv1 : v3.1 < 2 ^ 32) (hv2 : v3.2.1 < 2 ^ 32)
    (hv3 : v3.2.2 < 2 ^ 32)
    (q : Nat × Nat × Nat × Nat) (hq1 : q.1 < 2 ^ 32) (hq2 : q.2.1 < 2 ^ 32)
    (hq3 : q.2.2.1 < 2 ^ 32) (hq4 : q.2.2.2 < 2 ^ 32)
    (P : Packet) (hPm : P.header.magic = PACKET_MAGIC)
    (hPs : P.header.sequence < 2 ^ 32) (hPt : P.header.packetType < 2 ^ 16)
    (hPw : P.payload.wf) (hPp : P.payload.getSize < 2 ^ 16) :
    ((s.writeBool b).readBool).1 = b
    ∧ ((s.writeUInt8 u8).readUInt8).1 = u8
    ∧ ((s.writeUInt16 u16).readUInt16).1 = u16
    ∧ ((s.writeUInt32 u32).readUInt32).1 = u32
    ∧ ((s.writeUInt64 u64).readUInt64).1 = u64
    ∧ ((s.writeInt8 i8).readInt8).1 = i8
    ∧ ((s.writeInt16 i16).readInt16).1 = i16
    ∧ ((s.writeInt32 i32).readInt32).1 = i32
    ∧ ((s.writeInt64 i64).readInt64).1 = i64
    ∧ ((s.writeFloat f32).readFloat).1 = f32
    ∧ ((s.writeDouble f64).readDouble).1 = f64
    ∧ ((s.writeString str).readString).1 = str
    ∧ ((s.writeVector3 v3).readVector3).1 = v3
    ∧ ((s.writeQuaternion q).readQuaternion).1 = q
    ∧ (Packet.default.deserialize (BitStream.ofBytes P.toBytes)).1 = true
    ∧ (Packet.default.deserialize
        (BitStream.ofBytes P.toBytes)).2.1.header.sequence = P.header.sequence
    ∧ (Packet.default.deserialize
        (BitStream.ofBytes P.toBytes)).2.1.header.packetType
        = P.header.packetType
    ∧ (Packet.default.deserialize
        (BitStream.ofBytes P.toBytes)).2.1.header.payloadSize
        = P.payload.getSize
    ∧ (Packet.default.deserialize
        (BitStream.ofBytes P.toBytes)).2.1.payloadBytes = P.payloadBytes := by
  have hpkt := Packet.deserialize_toBytes P hPm hPs hPt hPw hPp
  refine ⟨?_, ?_, ?_, ?_, ?_, ?_, ?_, ?_, ?_, ?_, ?_, ?_, ?_, ?_,
    hpkt.1, hpkt.2.1, hpkt.2.2.1, hpkt.2.2.2.1, hpkt.2.2.2.2⟩
  · have hb := BitStream.readUInt_writeUInt hwf hr (w := 1)
      (v := if b then 1 else 0) (by norm_num) (by cases b <;> norm_num)
    unfold BitStream.writeBool BitStream.readBool BitStream.readUInt8
      BitStream.writeUInt8
    simp only
    rw [hb]
    cases b <;> simp
  · exact BitStream.readUInt_writeUInt hwf hr (by norm_num) h8
  · exact BitStream.readUInt_writeUInt hwf hr (by norm_num) h16
  · exact BitStream.readUInt_writeUInt hwf hr (by norm_num) h32
  · exact BitStream.readUInt_writeUInt hwf hr (by norm_num) h64
  · exact BitStream.readInt_writeInt hwf hr (by norm_num) h8lo h8hi
  · exact BitStream.readInt_writeInt hwf hr (by norm_num) h16lo h16hi
  · exact BitStream.readInt_writeInt hwf hr (by norm_num) h32lo h32hi
  · exact BitStream.readInt_writeInt hwf hr (by norm_num) h64lo h64hi
  · exact BitStream.readUInt_writeUInt hwf hr (by norm_num) hf32
  · exact BitStream.readUInt_writeUInt hwf hr (by norm_num) hf64
  · obtain ⟨w1, r1le, rest1⟩ := BitStream.write_chain hwf (le_of_eq hr)
      (natToBytesLE 4 str.length)
    unfold BitStream.writeString
    simp only [BitStream.writeUInt32, BitStream.writeUInt]
    by_cases hl : 0 < str.length
    · obtain ⟨w2, r2le, rest2⟩ := BitStream.write_chain w1 r1le str
      have h : ((s.writeBytes (natToBytesLE 4 str.length)).writeBytes str).rest
          = natToBytesLE 4 str.length ++ (str ++ []) := by
        rw [rest2, rest1, BitStream.rest_eq_nil hr]
        simp
      obtain ⟨hrs, _, _⟩ := BitStream.readString_rest w2 hstr h
      rw [if_pos hl, hrs]
    · have hstr0 : str = [] := List.eq_nil_of_length_eq_zero (by omega)
      subst hstr0
      rw [if_neg hl]
      have h : (s.writeBytes (natToBytesLE 4 ([] : List Nat).length)).rest
          = natToBytesLE 4 ([] : List Nat).length ++ (([] : List Nat) ++ []) := by
        rw [rest1, BitStream.rest_eq_nil hr]
        simp
      obtain ⟨hrs, _, _⟩ := BitStream.readString_rest w1 (by norm_num) h
      rw [hrs]
  · obtain ⟨w1, r1le, rest1⟩ := BitStream.write_chain hwf (le_of_eq hr)
      (natToBytesLE 4 v3.1)
    obtain ⟨w2, r2le, rest2⟩ := BitStream.write_chain w1 r1le
      (natToBytesLE 4 v3.2.1)
    obtain ⟨w3, r3le, rest3⟩ := BitStream.write_chain w2 r2le
      (natToBytesLE 4 v3.2.2)
    have h : (((s.writeBytes (natToBytesLE 4 v3.1)).writeBytes
        (natToBytesLE 4 v3.2.1)).writeBytes (natToBytesLE 4 v3.2.2)).rest
        = natToBytesLE 4 v3.1 ++ (natToBytesLE 4 v3.2.1
          ++ (natToBytesLE 4 v3.2.2 ++ [])) := by
      rw [rest3, rest2, rest1, BitStream.rest_eq_nil hr]
      simp
    obtain ⟨hx, rx, wx⟩ := BitStream.readUInt_rest w3 (by norm_num) h
    obtain ⟨hy, ry, wy⟩ := BitStream.readUInt_rest wx (by norm_num) rx
    obtain ⟨hz, rz, wz⟩ := BitStream.readUInt_rest wy (by norm_num) ry
    unfold BitStream.writeVector3 BitStream.readVector3 BitStream.writeFloat
      BitStream.readFloat
    simp only [BitStream.writeUInt]
    rw [hx]
    simp only
    rw [hy]
    simp only
    rw [hz]
    simp only
    rw [Nat.mod_eq_of_lt hv1, Nat.mod_eq_of_lt hv2, Nat.mod_eq_of_lt hv3]
  · obtain ⟨w1, r1le, rest1⟩ := BitStream.write_chain hwf (le_of_eq hr)
      (natToBytesLE 4 q.1)
    obtain ⟨w2, r2le, rest2⟩ := BitStream.write_chain w1 r1le
      (natToBytesLE 4 q.2.1)
    obtain ⟨w3, r3le, rest3⟩ := BitStream.write_chain w2 r2le
      (natToBytesLE 4 q.2.2.1)
    obtain ⟨w4, r4le, rest4⟩ := BitStream.write_chain w3 r3le
      (natToBytesLE 4 q.2.2.2)
    have h : ((((s.writeBytes (natToBytesLE 4 q.1)).writeBytes
        (natToBytesLE 4 q.2.1)).writeBytes (natToBytesLE 4 q.2.2.1)).writeBytes
        (natToBytesLE 4 q.2.2.2)).rest
        = natToBytesLE 4 q.1 ++ (natToBytesLE 4 q.2.1
          ++ (natToBytesLE 4 q.2.2.1 ++ (natToBytesLE 4 q.2.2.2 ++ []))) := by
      rw [rest4, rest3, rest2, rest1, BitStream.rest_eq_nil hr]
      simp
    obtain ⟨ha, ra, wa⟩ := BitStream.readUInt_rest w4 (by norm_num) h
    obtain ⟨hb2, rb, wb⟩ := BitStream.readUInt_rest wa (by norm_num) ra
    obtain ⟨hc, rc, wc⟩ := BitStream.readUInt_rest wb (by norm_num) rb
    obtain ⟨hd, rd, wd⟩ := BitStream.readUInt_rest wc (by norm_num) rc
    unfold BitStream.writeQuaternion BitStream.readQuaternion
      BitStream.writeFloat BitStream.readFloat
    simp only [BitStream.writeUInt]
    rw [ha]
    simp only
    rw [hb2]
    simp only
    rw [hc]
    simp only
    rw [hd]
    simp only
    rw [Nat.mod_eq_of_lt hq1, Nat.mod_eq_of_lt hq2, Nat.mod_eq_of_lt hq3,
      Nat.mod_eq_of_lt hq4]

/-- Witness for C3 at concrete inputs: a fresh stream round-trips a u32,
a negative i32 and a string, and the concrete packet `c3Packet`
round-trips its payload bytes. -/
theorem c3_wire_roundtrip_witness :
    ((BitStream.empty.writeUInt32 3000000000).readUInt32).1 = 3000000000
    ∧ ((BitStream.empty.writeInt32 (-70000)).readInt32).1 = -70000
    ∧ ((BitStream.empty.writeString [1, 2, 3]).readString).1 = [1, 2, 3]
    ∧ (Packet.default.deserialize
        (BitStream.ofBytes c3Packet.toBytes)).2.1.payloadBytes
        = c3Packet.payloadBytes := by
  obtain ⟨c1, c2, c3, c4, c5, c6, c7, c8, c9, c10, c11, c12, c13, c14, c15,
    c16, c17, c18, c19⟩ :=
    c3_wire_roundtrip BitStream.empty BitStream.wf_empty rfl true
      200 (by norm_num) 60000 (by norm_num) 3000000000 (by norm_num)
      12345678901234567890 (by norm_num)
      (-5) (by norm_num) (by norm_num)
      (-300) (by norm_num) (by norm_num)
      (-70000) (by norm_num) (by norm_num)
      (-1099511627776) (by norm_num) (by norm_num)
      1065353216 (by norm_num) 4607182418800017408 (by norm_num)
      [1, 2, 3] (by norm_num)
      (1, 2, 3) (by norm_num) (by norm_num) (by norm_num)
      (1, 2, 3, 4) (by norm_num) (by norm_num) (by norm_num) (by norm_num)
      c3Packet rfl (by decide) (by decide)
      (by unfold BitStream.wf; decide) (by decide)
  exact ⟨c4, c8, c12, c19⟩

end WVNet
